import Mathlib

/-!
DBICP: a verification development.

Shallow embedding of `src/trunk/dbicp.cpp` (class `DBICP`, declared in
`src/dbicp.h`): the correspondence search `compute_corres`, the robust loss
`Beaton_Tukey_rho`, the cost function `cost`, the gradient descent
`get_optimal_similarity_using_gd` and the driver `perform`.

Numbers: the C++ `double`s are modelled by an arbitrary linearly ordered field
`α` (exact arithmetic); every definition is executable on `ℚ`, and every
general theorem also holds on `ℝ`.  `abs` in `Beaton_Tukey_rho` is the
floating overload of `std::abs` (`using namespace std` is in force).
Containers: `PointSet` and `vector<int>` are lists; `v[i]` read or written
outside the bounds is undefined behaviour in C++ and is `none` here.
-/

namespace DBICP

/-! ## Constants (`#define`s of dbicp.cpp) -/

/-- Line 3: `#define INF 100000000`. -/
def INF {α : Type} [LinearOrderedField α] : α := 100000000

/-- Line 12: `#define RHO_0 1e-3`. -/
def RHO_0 {α : Type} [LinearOrderedField α] : α := 1 / 1000

/-- Line 13: `#define RHO_1 1e-10`. -/
def RHO_1 {α : Type} [LinearOrderedField α] : α := 1 / 10000000000

/-- Line 14: `#define EPSILON_0 1`. -/
def EPSILON_0 {α : Type} [LinearOrderedField α] : α := 1

/-- Line 15: `#define EPSILON_1 1e-3`. -/
def EPSILON_1 {α : Type} [LinearOrderedField α] : α := 1 / 1000

/-- Line 16: `#define GD_NITER_MAX 1`. -/
def GD_NITER_MAX : Nat := 1

/-- Line 19: `#define BT_A 1e7`. -/
def BT_A {α : Type} [LinearOrderedField α] : α := 10000000

/-- Line 22: `#define DBICP_NITER_MAX 2`. -/
def DBICP_NITER_MAX : Nat := 2

/-! ## Data model -/

/-- Modelled from the spec: class `Point` (pointset.h is not among the sources);
the spec gives it as a pair `(x, y)` of real coordinates, and dbicp.cpp reads
the members `x` and `y`. -/
structure Point (α : Type) where
  x : α
  y : α
deriving DecidableEq, Repr

/-- Modelled from the spec: class `PointSet` (pointset.h is not among the
sources), an ordered sequence of points with `size()` and `operator[]`. -/
abbrev PointSet (α : Type) := List (Point α)

/-- Modelled from the spec: classes `Transfo` and `Similarity` (transfo.h and
similarity.h are not among the sources).  The spec gives a transform as four
real parameters `(p0, p1, p2, p3)`; dbicp.cpp names them `t11, t12, t13, t21`,
and `Similarity(a, b, c, d)` is the transform with these four parameters. -/
structure Transfo (α : Type) where
  t11 : α
  t12 : α
  t13 : α
  t21 : α
deriving DecidableEq, Repr

/-- The constructor call `Similarity(a, b, c, d)` of dbicp.cpp. -/
abbrev Similarity {α : Type} (a b c d : α) : Transfo α := ⟨a, b, c, d⟩

/-- Operations of `Point`, `PointSet`, `Transfo` and `Similarity` that dbicp.cpp
calls and whose code is not among the sources; they are parameters of the
development. -/
structure Env (α : Type) where
  /-- `Point::get_dist_with(Point)`. -/
  dist : Point α → Point α → α
  /-- `PointSet::get_dist_with(PointSet)`. -/
  set_dist : PointSet α → PointSet α → α
  /-- `Transfo::operator()(in, out)`: the set written into `out`. -/
  app : Transfo α → PointSet α → PointSet α
  /-- `PointSet::get_x_mean()`. -/
  get_x_mean : PointSet α → α
  /-- `PointSet::get_y_mean()`. -/
  get_y_mean : PointSet α → α
  /-- `Point()`, the value `PointSet::resize` fills with. -/
  point0 : Point α
  /-- `Transfo()`, line 51. -/
  transfo0 : Transfo α
  /-- `Similarity S;`, line 71. -/
  similarity0 : Transfo α

/-- The data members of `DBICP` that the alignment uses (dbicp.h, lines 26-35);
`corres` holds target indices. -/
structure State (α : Type) where
  ps1 : PointSet α
  ps2 : PointSet α
  ps1_img : PointSet α
  ps2_NN2img : PointSet α
  corres : List Nat
  transfo : Transfo α
  error : α
deriving DecidableEq, Repr

/-! ## Constructor -/

/-- Lines 44-51: `DBICP::DBICP(ps1, ps2)`; `resize` value-initialises, so
`corres` is filled with `0` and the point sets with `Point()`. -/
def DBICP_new {α : Type} [LinearOrderedField α] (env : Env α)
    (ps1 ps2 : PointSet α) : State α :=
  { ps1 := ps1
    ps2 := ps2
    corres := List.replicate ps1.length 0
    ps1_img := List.replicate ps1.length env.point0
    ps2_NN2img := List.replicate ps1.length env.point0
    error := 0
    transfo := env.transfo0 }

/-! ## Matching -/

/-- Lines 130-134: the body of the inner loop of `compute_corres` at source
index `i` and target index `j`; the second component is the local
`error_i_min`. -/
def corres_test {α : Type} [LinearOrderedField α] (env : Env α) (i : Nat)
    (a : State α × α) (j : Nat) : Option (State α × α) :=
  match a.1.ps1_img[i]?, a.1.ps2[j]? with
  | some p, some q =>
    if env.dist p q < a.2 then
      if i < a.1.corres.length ∧ i < a.1.ps2_NN2img.length then
        some ({ a.1 with corres := a.1.corres.set i j
                         ps2_NN2img := a.1.ps2_NN2img.set i q }, env.dist p q)
      else none
    else some a
  | _, _ => none

/-- Lines 127-136: the body of the outer loop of `compute_corres` at source
index `i`. -/
def corres_point {α : Type} [LinearOrderedField α] (env : Env α)
    (st : State α) (i : Nat) : Option (State α) :=
  ((List.range st.ps2.length).foldlM (corres_test env i) (st, INF)).map
    (fun a => { a.1 with error := a.1.error + a.2 })

/-- Lines 116-139: `DBICP::compute_corres`. -/
def compute_corres {α : Type} [LinearOrderedField α] (env : Env α)
    (st : State α) : Option (State α) :=
  let st1 := { st with error := 0 }
  let st2 := { st1 with ps1_img := env.app st1.transfo st1.ps1 }
  (List.range st2.ps1.length).foldlM (corres_point env) st2

/-! ## Optimisation -/

/-- Lines 182-193: `DBICP::Beaton_Tukey_rho`. -/
def Beaton_Tukey_rho {α : Type} [LinearOrderedField α] (u : α) : α :=
  if |u| > BT_A then
    BT_A * BT_A / 6
  else
    BT_A * BT_A / 6 * (1 - (1 - (u / BT_A) ^ 2) ^ 3)

/-- Lines 173-180: `DBICP::cost`; it overwrites `ps1_img` and returns the loss
of the aggregate distance to `ps2_NN2img`. -/
def cost {α : Type} [LinearOrderedField α] (env : Env α) (T : Transfo α)
    (st : State α) : α × State α :=
  let st1 := { st with ps1_img := env.app T st.ps1 }
  (Beaton_Tukey_rho (env.set_dist st1.ps1_img st1.ps2_NN2img), st1)

/-- Lines 161-166: the body of the loop of `get_optimal_similarity_using_gd`,
on the local `S` and the object state.  In each line the two calls of `cost`
are taken left to right. -/
def gd_step {α : Type} [LinearOrderedField α] (env : Env α)
    (a : Transfo α × State α) : Transfo α × State α :=
  let S := a.1
  let st := a.2
  -- line 161
  let c1 := cost env (Similarity (S.t11 + EPSILON_0) S.t12 S.t13 S.t21) st
  let c2 := cost env S c1.2
  let S := { S with t11 := S.t11 - RHO_0 * (c1.1 - c2.1) / EPSILON_0 }
  -- line 162
  let c3 := cost env (Similarity S.t11 (S.t12 + EPSILON_1) S.t13 S.t21) c2.2
  let c4 := cost env S c3.2
  let S := { S with t12 := S.t12 - RHO_1 * (c3.1 - c4.1) / EPSILON_1 }
  -- line 163
  let c5 := cost env (Similarity S.t11 S.t12 (S.t13 + EPSILON_1) S.t21) c4.2
  let c6 := cost env S c5.2
  let S := { S with t13 := S.t13 - RHO_1 * (c5.1 - c6.1) / EPSILON_1 }
  -- line 164
  let c7 := cost env (Similarity S.t11 S.t12 S.t13 (S.t21 + EPSILON_0)) c6.2
  let c8 := cost env S c7.2
  let S := { S with t21 := S.t21 - RHO_0 * (c7.1 - c8.1) / EPSILON_0 }
  -- line 166
  (Similarity S.t11 S.t12 S.t13 S.t21, c8.2)

/-- Lines 151-171: `DBICP::get_optimal_similarity_using_gd`; returns the
similarity and the object state (whose `ps1_img` the calls of `cost` wrote). -/
def get_optimal_similarity_using_gd {α : Type} [LinearOrderedField α]
    (env : Env α) (st : State α) : Transfo α × State α :=
  (List.range GD_NITER_MAX).foldl (fun a _ => gd_step env a)
    (Similarity st.transfo.t11 st.transfo.t12 st.transfo.t13 st.transfo.t21, st)

/-- Lines 147-149: `DBICP::get_optimal_similarity`. -/
def get_optimal_similarity {α : Type} [LinearOrderedField α]
    (env : Env α) (st : State α) : Transfo α × State α :=
  get_optimal_similarity_using_gd env st

/-! ## General algorithm -/

/-- Lines 71-80 of `DBICP::perform`: the initialisation with the mean
translation. -/
def perform_init {α : Type} [LinearOrderedField α] (env : Env α)
    (st : State α) : State α :=
  let S := env.similarity0
  let S := { S with t11 := env.get_x_mean st.ps2 - env.get_x_mean st.ps1 }
  let S := { S with t21 := env.get_y_mean st.ps2 - env.get_y_mean st.ps1 }
  let st := { st with transfo := S }
  { st with ps1_img := env.app st.transfo st.ps1 }

/-- Lines 90-92 of `DBICP::perform`: the body of the loop. -/
def perform_iteration {α : Type} [LinearOrderedField α] (env : Env α)
    (st : State α) : Option (State α) :=
  (compute_corres env st).map (fun st1 =>
    let r := get_optimal_similarity env st1
    { r.2 with transfo := r.1 })

/-- Lines 65-94 of `DBICP::perform`: initialisation and iterations (the display
that follows does not change the alignment state). -/
def perform {α : Type} [LinearOrderedField α] (env : Env α)
    (st : State α) : Option (State α) :=
  (List.range DBICP_NITER_MAX).foldlM (fun s _ => perform_iteration env s)
    (perform_init env st)

/-! ## The sequential coordinate descent of the specification -/

/-- One pass of sequential coordinate descent as the specification words it,
from the parameters `(p0, p1, p2, p3)`, for a cost `c` of four parameters:
each parameter is moved against its finite-difference gradient, taken at the
already-updated earlier parameters. -/
def coordinate_descent_pass {α : Type} [LinearOrderedField α]
    (c : α → α → α → α → α) (p0 p1 p2 p3 : α) : Transfo α :=
  let q0 := p0 - 1 / 1000 * (c (p0 + 1) p1 p2 p3 - c p0 p1 p2 p3) / 1
  let q1 := p1 - 1 / 10000000000 * (c q0 (p1 + 1 / 1000) p2 p3 - c q0 p1 p2 p3) / (1 / 1000)
  let q2 := p2 - 1 / 10000000000 * (c q0 q1 (p2 + 1 / 1000) p3 - c q0 q1 p2 p3) / (1 / 1000)
  let q3 := p3 - 1 / 1000 * (c q0 q1 q2 (p3 + 1) - c q0 q1 q2 p3) / 1
  Similarity q0 q1 q2 q3

/-! ## Concrete instance used for evaluation -/

/-- Modelled from the spec: the operations of `Env` on `ℚ`, for evaluating the
code on concrete inputs.  Pointwise distance is `|dx| + |dy|`, which is the
Euclidean distance of the spec whenever the two points share a coordinate;
the aggregate distance is the sum of the pointwise distances; a transform
translates by `(t11, t21)`, the parameters `perform` seeds with the mean
translation; means are arithmetic means; `Point()` is the origin; the
default-constructed `Transfo` and `Similarity` have their four parameters zero
(the spec: rotation/shear-like parameters start at zero). -/
def exEnv : Env ℚ where
  dist p q := |p.x - q.x| + |p.y - q.y|
  set_dist ps qs := ((List.zip ps qs).map
    (fun pq => |pq.1.x - pq.2.x| + |pq.1.y - pq.2.y|)).sum
  app T ps := ps.map (fun p => ⟨p.x + T.t11, p.y + T.t21⟩)
  get_x_mean ps := (ps.map Point.x).sum / ps.length
  get_y_mean ps := (ps.map Point.y).sum / ps.length
  point0 := ⟨0, 0⟩
  transfo0 := ⟨0, 0, 0, 0⟩
  similarity0 := ⟨0, 0, 0, 0⟩

/-- The object `DBICP(ps1, ps2)` when `perform` reaches its loop (line 89),
in the instance `exEnv`. -/
def exStart (ps1 ps2 : PointSet ℚ) : State ℚ :=
  perform_init exEnv (DBICP_new exEnv ps1 ps2)

/-! ## Concrete states used for evaluation -/

/-- A state whose source, translated by `(5, 0)`, is its matched-target set. -/
def zeroCostState : State ℚ :=
  { ps1 := [⟨0, 0⟩, ⟨1, 0⟩]
    ps2 := [⟨5, 0⟩, ⟨6, 0⟩]
    ps1_img := [⟨0, 0⟩, ⟨0, 0⟩]
    ps2_NN2img := [⟨5, 0⟩, ⟨6, 0⟩]
    corres := [0, 1]
    transfo := ⟨0, 0, 0, 0⟩
    error := 0 }

/-- The object `DBICP(ps1, ps2)` for two source points and no target point. -/
def noTargetState : State ℚ := DBICP_new exEnv [⟨0, 0⟩, ⟨1, 0⟩] []

/-- One source point at the origin; three targets with mean `(0, 0)` at
distances `5e8`, `2e8`, `3e8`, all beyond `INF = 1e8`. -/
def farState1 : State ℚ :=
  exStart [⟨0, 0⟩] [⟨500000000, 0⟩, ⟨-200000000, 0⟩, ⟨-300000000, 0⟩]

/-- One source point at the origin; four targets with mean `(0, 0)` at
distances `4e8`, `2e8`, `2e8`, `4e8`, all beyond `INF = 1e8`. -/
def farState2 : State ℚ :=
  exStart [⟨0, 0⟩] [⟨0, 400000000⟩, ⟨200000000, 0⟩, ⟨-200000000, 0⟩, ⟨0, -400000000⟩]

/-- One source point at the origin; two targets with mean `(0, 0)`, both at
distance `3e8`. -/
def farState3 : State ℚ :=
  exStart [⟨0, 0⟩] [⟨300000000, 0⟩, ⟨-300000000, 0⟩]

/-- One source point at the origin; two targets with mean `(0, 0)`, both at
distance `4e8`. -/
def farState5 : State ℚ :=
  exStart [⟨0, 0⟩] [⟨400000000, 0⟩, ⟨-400000000, 0⟩]

/-- The object `DBICP([(0,0)], [(0,0), (5e8,0)])` with the translation by
`(5e8, 0)` as current transform. -/
def staleState : State ℚ :=
  { DBICP_new exEnv [⟨0, 0⟩] [⟨0, 0⟩, ⟨500000000, 0⟩] with
    transfo := Similarity 500000000 0 0 0 }

/-! ## Specification predicates for `compute_corres` -/

/-- The capped minimum: `min(INF, min_j dist p ps2[j])`, as a fold. -/
def capped_min {α : Type} [LinearOrderedField α] (env : Env α) (ps2 : PointSet α)
    (p : Point α) : α :=
  ps2.foldl (fun e q => min e (env.dist p q)) INF

/-- What `compute_corres` achieves at source index `i`, whose transformed point
is `p`: `st` is the object before the call and `s` the object after it.
Either no target is closer than `INF` and the entries are those of `st`, or
the entries are the first target at minimal distance. -/
def PointMatched {α : Type} [LinearOrderedField α] (env : Env α) (st s : State α)
    (i : Nat) (p : Point α) : Prop :=
  ((∀ q ∈ st.ps2, INF ≤ env.dist p q) ∧ s.corres[i]? = st.corres[i]? ∧
      s.ps2_NN2img[i]? = st.ps2_NN2img[i]?) ∨
  (∃ j q, st.ps2[j]? = some q ∧ env.dist p q < INF ∧
      s.corres[i]? = some j ∧ s.ps2_NN2img[i]? = some q ∧
      (∀ r ∈ st.ps2, env.dist p q ≤ env.dist p r) ∧
      (∀ k r, k < j → st.ps2[k]? = some r → env.dist p q < env.dist p r))

/-- Invariant of the inner loop of `compute_corres` at source index `i`, after
the target indices below `m`: `a` is the current object and `error_i_min`,
`s` the object when the loop started, `p` the transformed source point. -/
structure ScanInv {α : Type} [LinearOrderedField α] (env : Env α) (s : State α)
    (i : Nat) (p : Point α) (m : Nat) (a : State α × α) : Prop where
  ps1_eq : a.1.ps1 = s.ps1
  ps2_eq : a.1.ps2 = s.ps2
  img_eq : a.1.ps1_img = s.ps1_img
  transfo_eq : a.1.transfo = s.transfo
  error_eq : a.1.error = s.error
  corres_len : a.1.corres.length = s.corres.length
  nn_len : a.1.ps2_NN2img.length = s.ps2_NN2img.length
  corres_other : ∀ k, k ≠ i → a.1.corres[k]? = s.corres[k]?
  nn_other : ∀ k, k ≠ i → a.1.ps2_NN2img[k]? = s.ps2_NN2img[k]?
  le_INF : a.2 ≤ INF
  le_seen : ∀ j q, j < m → s.ps2[j]? = some q → a.2 ≤ env.dist p q
  best : (a.2 = INF ∧ a.1.corres[i]? = s.corres[i]? ∧
            a.1.ps2_NN2img[i]? = s.ps2_NN2img[i]?) ∨
         (∃ j q, j < m ∧ s.ps2[j]? = some q ∧ a.2 = env.dist p q ∧ a.2 < INF ∧
            a.1.corres[i]? = some j ∧ a.1.ps2_NN2img[i]? = some q ∧
            ∀ k r, k < j → s.ps2[k]? = some r → a.2 < env.dist p r)

/-- Invariant of the outer loop of `compute_corres` after the source indices
below `n`: `st` is the object when the loop started, `s` the current one. -/
structure MatchInv {α : Type} [LinearOrderedField α] (env : Env α) (st : State α)
    (n : Nat) (s : State α) : Prop where
  ps1_eq : s.ps1 = st.ps1
  ps2_eq : s.ps2 = st.ps2
  img_eq : s.ps1_img = st.ps1_img
  transfo_eq : s.transfo = st.transfo
  corres_len : s.corres.length = st.corres.length
  nn_len : s.ps2_NN2img.length = st.ps2_NN2img.length
  corres_rest : ∀ k, n ≤ k → s.corres[k]? = st.corres[k]?
  nn_rest : ∀ k, n ≤ k → s.ps2_NN2img[k]? = st.ps2_NN2img[k]?
  error_eq : s.error = st.error + ((st.ps1_img.take n).map (capped_min env st.ps2)).sum
  point : ∀ i p, i < n → st.ps1_img[i]? = some p → PointMatched env st s i p

/-- What `compute_corres` achieves: `st` is the object before the call and `s`
the object after it. -/
structure CorresPost {α : Type} [LinearOrderedField α] (env : Env α)
    (st s : State α) : Prop where
  ps1_eq : s.ps1 = st.ps1
  ps2_eq : s.ps2 = st.ps2
  transfo_eq : s.transfo = st.transfo
  img_eq : s.ps1_img = env.app st.transfo st.ps1
  corres_len : s.corres.length = st.corres.length
  nn_len : s.ps2_NN2img.length = st.ps2_NN2img.length
  error_eq : s.error = ((env.app st.transfo st.ps1).map (capped_min env st.ps2)).sum
  point : ∀ i p, (env.app st.transfo st.ps1)[i]? = some p → PointMatched env st s i p

/-- The object of the end-to-end scenario of the specification:
`DBICP([(0,0), (1,0), (0,1)], [(5,0), (6,0), (5,1)])`. -/
def translationState : State ℚ :=
  DBICP_new exEnv [⟨0, 0⟩, ⟨1, 0⟩, ⟨0, 1⟩] [⟨5, 0⟩, ⟨6, 0⟩, ⟨5, 1⟩]

/-- An object whose matched target is at distance `3e7` of the source point, so
that the aggregate distance exceeds `BT_A = 1e7` for every translation by a few
units. -/
def saturatedState : State ℚ :=
  { ps1 := [⟨0, 0⟩]
    ps2 := [⟨30000000, 0⟩]
    ps1_img := [⟨0, 0⟩]
    ps2_NN2img := [⟨30000000, 0⟩]
    corres := [0]
    transfo := ⟨0, 0, 0, 0⟩
    error := 30000000 }

/-- The size invariant of the specification: the transformed image, the
matched-target set and the index vector have `ps1.size()` elements. -/
def SizeInv {α : Type} (st : State α) : Prop :=
  st.ps1_img.length = st.ps1.length ∧ st.ps2_NN2img.length = st.ps1.length ∧
    st.corres.length = st.ps1.length

/-- The object of `translationState` with the translation by `(5, 0)` as
transform and arbitrary values in `corres`, `ps2_NN2img`, `ps1_img` and
`error`. -/
def scrambledState : State ℚ :=
  { translationState with
    transfo := Similarity 5 0 0 0
    corres := [2, 0, 1]
    ps2_NN2img := [⟨9, 9⟩, ⟨8, 8⟩, ⟨7, 7⟩]
    ps1_img := []
    error := 42 }

/-- The states that an object `DBICP(ps1, ps2)` can reach: the constructed one,
and those after an assignment to `transfo`, after a call of `compute_corres`
that completes, and after a call of `cost`. -/
inductive Reachable {α : Type} [LinearOrderedField α] (env : Env α)
    (ps1 ps2 : PointSet α) : State α → Prop
  | construct : Reachable env ps1 ps2 (DBICP_new env ps1 ps2)
  | assign (s : State α) (T : Transfo α) :
      Reachable env ps1 ps2 s → Reachable env ps1 ps2 { s with transfo := T }
  | search (s s' : State α) :
      Reachable env ps1 ps2 s → compute_corres env s = some s' → Reachable env ps1 ps2 s'
  | evaluate (s : State α) (T : Transfo α) :
      Reachable env ps1 ps2 s → Reachable env ps1 ps2 (DBICP.cost env T s).2

/-- The object `DBICP([(0,0), (10,0)], [(-2,0), (12,0)])`: the two sets have the
same mean, and each source point is at distance `2` of its nearest target. -/
def imageStart : State ℚ :=
  DBICP_new exEnv [⟨0, 0⟩, ⟨10, 0⟩] [⟨-2, 0⟩, ⟨12, 0⟩]

/-- The object of `imageStart` after the first iteration of `perform`: the
gradient step has moved `t21` from `0` to about `-0.01`. -/
def imageAfterFirst : State ℚ :=
  { ps1 := [⟨0, 0⟩, ⟨10, 0⟩]
    ps2 := [⟨-2, 0⟩, ⟨12, 0⟩]
    ps1_img := [⟨0, 0⟩, ⟨10, 0⟩]
    ps2_NN2img := [⟨-2, 0⟩, ⟨12, 0⟩]
    corres := [0, 1]
    transfo := ⟨0, 0, 0, -1874999999999025000000000133 / 187500000000000000000000000000⟩
    error := 4 }

/-- The object of `imageAfterFirst` after the correspondence search of the
second iteration of `perform`. -/
def imageSearched : State ℚ :=
  { ps1 := [⟨0, 0⟩, ⟨10, 0⟩]
    ps2 := [⟨-2, 0⟩, ⟨12, 0⟩]
    ps1_img := [⟨0, -1874999999999025000000000133 / 187500000000000000000000000000⟩,
                ⟨10, -1874999999999025000000000133 / 187500000000000000000000000000⟩]
    ps2_NN2img := [⟨-2, 0⟩, ⟨12, 0⟩]
    corres := [0, 1]
    transfo := ⟨0, 0, 0, -1874999999999025000000000133 / 187500000000000000000000000000⟩
    error := 4 + 2 * (1874999999999025000000000133 / 187500000000000000000000000000) }

/-- The tuning constant `a = BT_A` is positive. -/
theorem BT_A_pos {α : Type} [LinearOrderedField α] : (0 : α) < BT_A := by
  unfold BT_A; norm_num

/-- Value of the polynomial branch in terms of `t = (u / a)^2`. -/
theorem rho_of_abs_le {α : Type} [LinearOrderedField α] (u : α) (h : |u| ≤ BT_A) :
    Beaton_Tukey_rho u = BT_A * BT_A / 6 * (1 - (1 - (u / BT_A) ^ 2) ^ 3) := by
  unfold Beaton_Tukey_rho
  rw [if_neg (not_lt.mpr h)]

/-- Value of the saturated branch. -/
theorem rho_of_abs_gt {α : Type} [LinearOrderedField α] (u : α) (h : BT_A < |u|) :
    Beaton_Tukey_rho u = BT_A * BT_A / 6 := by
  unfold Beaton_Tukey_rho
  rw [if_pos h]

/-- For `|u| ≤ a` the ratio `(u / a)^2` lies in `[0, 1]`. -/
theorem sq_ratio_le_one {α : Type} [LinearOrderedField α] (u : α) (h : |u| ≤ BT_A) :
    (u / BT_A) ^ 2 ≤ 1 := by
  have ha : (0 : α) < BT_A := BT_A_pos
  have h1 : |u / BT_A| ≤ 1 := by
    rw [abs_div, abs_of_pos ha]
    exact (div_le_one ha).mpr h
  have h2 : (u / BT_A) ^ 2 = |u / BT_A| ^ 2 := (sq_abs _).symm
  rw [h2]
  exact pow_le_one₀ (abs_nonneg _) h1

/-- The ratio `(u / a)^2` is monotone in `|u|`. -/
theorem sq_ratio_mono {α : Type} [LinearOrderedField α] (u v : α) (h : |u| ≤ |v|) :
    (u / BT_A) ^ 2 ≤ (v / BT_A) ^ 2 := by
  have ha : (0 : α) < BT_A := BT_A_pos
  rw [← sq_abs (u / BT_A), ← sq_abs (v / BT_A), abs_div, abs_div]
  apply pow_le_pow_left₀ (div_nonneg (abs_nonneg _) (abs_nonneg _))
  exact div_le_div_of_nonneg_right h (abs_nonneg _)

/-- C6: saturation of `Beaton_Tukey_rho`.  For every `u` with `|u| ≥ a`
(`a = BT_A = 1e7`), the boundary `|u| = a` of the polynomial branch included,
`Beaton_Tukey_rho u = a^2 / 6`. -/
theorem Beaton_Tukey_rho_saturation {α : Type} [LinearOrderedField α] (u : α)
    (h : BT_A ≤ |u|) : Beaton_Tukey_rho u = BT_A ^ 2 / 6 := by
  have ha : (0 : α) < BT_A := BT_A_pos
  rcases lt_or_eq_of_le h with hlt | heq
  · rw [rho_of_abs_gt u hlt, sq]
  · rw [rho_of_abs_le u (le_of_eq heq.symm)]
    have h1 : (u / BT_A) ^ 2 = 1 := by
      rw [← sq_abs (u / BT_A), abs_div, abs_of_pos ha, ← heq, div_self (ne_of_gt ha)]
      norm_num
    rw [h1]
    ring

/-- Witness of C6 on the boundary `u = a`, on `ℚ`. -/
theorem Beaton_Tukey_rho_saturation_witness :
    (BT_A : ℚ) ≤ |10000000| ∧ Beaton_Tukey_rho (10000000 : ℚ) = BT_A ^ 2 / 6 :=
  ⟨by simp [BT_A], Beaton_Tukey_rho_saturation (10000000 : ℚ) (by simp [BT_A])⟩

/-- The loss never exceeds its saturation value on the polynomial branch. -/
theorem rho_poly_le {α : Type} [LinearOrderedField α] (u : α) (h : |u| ≤ BT_A) :
    BT_A * BT_A / 6 * (1 - (1 - (u / BT_A) ^ 2) ^ 3) ≤ BT_A * BT_A / 6 := by
  have ha : (0 : α) < BT_A := BT_A_pos
  have hc : (0 : α) ≤ BT_A * BT_A / 6 := by positivity
  have h1 : (0 : α) ≤ (1 - (u / BT_A) ^ 2) ^ 3 :=
    pow_nonneg (sub_nonneg.mpr (sq_ratio_le_one u h)) 3
  calc BT_A * BT_A / 6 * (1 - (1 - (u / BT_A) ^ 2) ^ 3)
      ≤ BT_A * BT_A / 6 * 1 := mul_le_mul_of_nonneg_left (by linarith) hc
    _ = BT_A * BT_A / 6 := mul_one _

/-- C7: `Beaton_Tukey_rho` is non-decreasing in `|u|`: for all `u`, `v` with
`|u| ≤ |v|`, `Beaton_Tukey_rho u ≤ Beaton_Tukey_rho v`, on both branches and
across the switch at `|u| = a`. -/
theorem Beaton_Tukey_rho_monotone {α : Type} [LinearOrderedField α] (u v : α)
    (h : |u| ≤ |v|) : Beaton_Tukey_rho u ≤ Beaton_Tukey_rho v := by
  have ha : (0 : α) < BT_A := BT_A_pos
  have hc : (0 : α) ≤ BT_A * BT_A / 6 := by positivity
  by_cases hv : BT_A < |v|
  · rw [rho_of_abs_gt v hv]
    by_cases hu : BT_A < |u|
    · rw [rho_of_abs_gt u hu]
    · rw [rho_of_abs_le u (not_lt.mp hu)]
      exact rho_poly_le u (not_lt.mp hu)
  · have hv1 : |v| ≤ BT_A := not_lt.mp hv
    have hu1 : |u| ≤ BT_A := le_trans h hv1
    rw [rho_of_abs_le u hu1, rho_of_abs_le v hv1]
    apply mul_le_mul_of_nonneg_left _ hc
    have h1 : (1 - (v / BT_A) ^ 2) ^ 3 ≤ (1 - (u / BT_A) ^ 2) ^ 3 := by
      apply pow_le_pow_left₀ (sub_nonneg.mpr (sq_ratio_le_one v hv1))
      linarith [sq_ratio_mono u v h]
    linarith

/-- Witness of C7 across the switch: `|a| ≤ |-2a|` on `ℚ`. -/
theorem Beaton_Tukey_rho_monotone_witness :
    |(10000000 : ℚ)| ≤ |(-20000000 : ℚ)| ∧
    Beaton_Tukey_rho (10000000 : ℚ) ≤ Beaton_Tukey_rho (-20000000 : ℚ) :=
  ⟨by rw [abs_neg, abs_of_pos, abs_of_pos] <;> norm_num,
   Beaton_Tukey_rho_monotone (10000000 : ℚ) (-20000000 : ℚ)
    (by rw [abs_neg, abs_of_pos, abs_of_pos] <;> norm_num)⟩

/-- C8: symmetry of `Beaton_Tukey_rho`: for every `u`,
`Beaton_Tukey_rho u = Beaton_Tukey_rho (-u)`. -/
theorem Beaton_Tukey_rho_symmetric {α : Type} [LinearOrderedField α] (u : α) :
    Beaton_Tukey_rho u = Beaton_Tukey_rho (-u) := by
  unfold Beaton_Tukey_rho
  rw [abs_neg, neg_div, neg_sq]

/-- The loss vanishes at zero. -/
theorem rho_zero {α : Type} [LinearOrderedField α] :
    Beaton_Tukey_rho (0 : α) = 0 := by
  have ha : (0 : α) < BT_A := BT_A_pos
  rw [rho_of_abs_le (0 : α) (by rw [abs_zero]; exact le_of_lt ha)]
  simp

/-- C9: `Beaton_Tukey_rho 0 = 0`, so `cost T = 0` for every transform `T` whose
image of the source has aggregate distance `0` to the matched-target set. -/
theorem cost_zero_of_zero_distance {α : Type} [LinearOrderedField α] (env : Env α)
    (T : Transfo α) (st : State α)
    (h : env.set_dist (env.app T st.ps1) st.ps2_NN2img = 0) :
    Beaton_Tukey_rho (0 : α) = 0 ∧ (cost env T st).1 = 0 := by
  refine ⟨rho_zero, ?_⟩
  show Beaton_Tukey_rho (env.set_dist (env.app T st.ps1) st.ps2_NN2img) = 0
  rw [h]
  exact rho_zero

/-- Witness of C9: the translation by `(5, 0)` has cost `0` on `zeroCostState`. -/
theorem cost_zero_of_zero_distance_witness :
    exEnv.set_dist (exEnv.app (Similarity 5 0 0 0) zeroCostState.ps1)
      zeroCostState.ps2_NN2img = 0 ∧
    Beaton_Tukey_rho (0 : ℚ) = 0 ∧ (cost exEnv (Similarity 5 0 0 0) zeroCostState).1 = 0 :=
  ⟨by simp [exEnv, zeroCostState]; norm_num,
   cost_zero_of_zero_distance exEnv (Similarity 5 0 0 0) zeroCostState
    (by simp [exEnv, zeroCostState]; norm_num)⟩

/-! ## Gradient descent -/

/-- The value of `cost` depends on the state through `ps1` and `ps2_NN2img`
only, and `cost` changes neither. -/
theorem cost_fst_after_cost {α : Type} [LinearOrderedField α] (env : Env α)
    (T U : Transfo α) (st : State α) :
    (cost env T (cost env U st).2).1 = (cost env T st).1 := rfl

/-- The state after two calls of `cost` is the state after the second one. -/
theorem cost_snd_after_cost {α : Type} [LinearOrderedField α] (env : Env α)
    (T U : Transfo α) (st : State α) :
    (cost env T (cost env U st).2).2 = (cost env T st).2 := rfl

/-- With `GD_NITER_MAX = 1` the loop of `get_optimal_similarity_using_gd` is
one execution of its body. -/
theorem gd_is_one_step {α : Type} [LinearOrderedField α] (env : Env α) (st : State α) :
    get_optimal_similarity_using_gd env st =
      gd_step env (Similarity st.transfo.t11 st.transfo.t12 st.transfo.t13 st.transfo.t21, st) := by
  unfold get_optimal_similarity_using_gd GD_NITER_MAX
  rw [show List.range 1 = [0] from rfl, List.foldl_cons, List.foldl_nil]

/-- The value that `cost` returns, as a function of the transform alone. -/
theorem cost_fst {α : Type} [LinearOrderedField α] (env : Env α) (T : Transfo α)
    (st : State α) :
    (cost env T st).1 = Beaton_Tukey_rho (env.set_dist (env.app T st.ps1) st.ps2_NN2img) := rfl

/-- The members `ps1` and `ps2_NN2img` that `cost` reads are not written by it. -/
theorem cost_snd_frame {α : Type} [LinearOrderedField α] (env : Env α) (T : Transfo α)
    (st : State α) :
    (cost env T st).2.ps1 = st.ps1 ∧ (cost env T st).2.ps2_NN2img = st.ps2_NN2img :=
  ⟨rfl, rfl⟩

/-- C10: one pass of `get_optimal_similarity_using_gd` is the sequential
coordinate descent of the specification: from `(p0, p1, p2, p3) =
(transfo.t11, t12, t13, t21)` it returns `Similarity(p0', p1', p2', p3')` with
`p0' = p0 - 1e-3 * (cost(p0+1,p1,p2,p3) - cost(p0,p1,p2,p3)) / 1`,
`p1' = p1 - 1e-10 * (cost(p0',p1+1e-3,p2,p3) - cost(p0',p1,p2,p3)) / 1e-3`,
`p2' = p2 - 1e-10 * (cost(p0',p1',p2+1e-3,p3) - cost(p0',p1',p2,p3)) / 1e-3`,
`p3' = p3 - 1e-3 * (cost(p0',p1',p2',p3+1) - cost(p0',p1',p2',p3)) / 1`,
where `cost` is the value of `DBICP::cost` on the object the pass started with;
every gradient is taken at the already-updated earlier parameters. -/
theorem gd_is_sequential_coordinate_descent {α : Type} [LinearOrderedField α]
    (env : Env α) (st : State α) :
    (get_optimal_similarity_using_gd env st).1 =
      coordinate_descent_pass (fun a b c d => (cost env (Similarity a b c d) st).1)
        st.transfo.t11 st.transfo.t12 st.transfo.t13 st.transfo.t21 := by
  rw [gd_is_one_step]
  unfold gd_step coordinate_descent_pass
  simp only [cost_fst, (cost_snd_frame env _ _).1, (cost_snd_frame env _ _).2,
    RHO_0, RHO_1, EPSILON_0, EPSILON_1]

/-! ## Loop invariants of `compute_corres` -/

/-- Invariant rule for a loop `for (k = 0; k < n; k++)` whose body may fail. -/
theorem foldlM_range_invariant {σ : Type} (f : σ → Nat → Option σ)
    (P : Nat → σ → Prop) (n : Nat) (s0 : σ) (h0 : P 0 s0)
    (hstep : ∀ k s, k < n → P k s → ∃ s', f s k = some s' ∧ P (k + 1) s') :
    ∃ s', (List.range n).foldlM f s0 = some s' ∧ P n s' := by
  induction n with
  | zero => exact ⟨s0, rfl, h0⟩
  | succ m ih =>
    obtain ⟨s1, h1, hP1⟩ := ih (fun k s hk hP => hstep k s (Nat.lt_succ_of_lt hk) hP)
    obtain ⟨s2, h2, hP2⟩ := hstep m s1 (Nat.lt_succ_self m) hP1
    refine ⟨s2, ?_, hP2⟩
    rw [List.range_succ, List.foldlM_append, h1]
    simp only [Option.bind_eq_bind, Option.some_bind, List.foldlM_cons, List.foldlM_nil, h2,
      Option.pure_def]

/-- The inner invariant holds before the first target, with `error_i_min = INF`. -/
theorem scanInv_init {α : Type} [LinearOrderedField α] (env : Env α) (s : State α)
    (i : Nat) (p : Point α) : ScanInv env s i p 0 (s, INF) where
  ps1_eq := rfl
  ps2_eq := rfl
  img_eq := rfl
  transfo_eq := rfl
  error_eq := rfl
  corres_len := rfl
  nn_len := rfl
  corres_other := fun _ _ => rfl
  nn_other := fun _ _ => rfl
  le_INF := le_refl _
  le_seen := fun j _ hj _ => absurd hj (Nat.not_lt_zero j)
  best := Or.inl ⟨rfl, rfl, rfl⟩

/-- The body of the inner loop at target index `m` completes and keeps the
invariant. -/
theorem scanInv_step {α : Type} [LinearOrderedField α] (env : Env α) (s : State α)
    (i : Nat) (p : Point α) (hp : s.ps1_img[i]? = some p)
    (hc : i < s.corres.length) (hn : i < s.ps2_NN2img.length)
    (m : Nat) (a : State α × α) (hm : m < s.ps2.length) (inv : ScanInv env s i p m a) :
    ∃ a', corres_test env i a m = some a' ∧ ScanInv env s i p (m + 1) a' := by
  obtain ⟨q, hq⟩ : ∃ q, s.ps2[m]? = some q := ⟨s.ps2[m], List.getElem?_eq_getElem hm⟩
  have hp' : a.1.ps1_img[i]? = some p := by rw [inv.img_eq]; exact hp
  have hq' : a.1.ps2[m]? = some q := by rw [inv.ps2_eq]; exact hq
  have hc' : i < a.1.corres.length := by rw [inv.corres_len]; exact hc
  have hn' : i < a.1.ps2_NN2img.length := by rw [inv.nn_len]; exact hn
  unfold corres_test
  rw [hp', hq']
  simp only []
  by_cases hlt : env.dist p q < a.2
  · rw [if_pos hlt, if_pos ⟨hc', hn'⟩]
    refine ⟨_, rfl, ?_⟩
    exact
      { ps1_eq := inv.ps1_eq
        ps2_eq := inv.ps2_eq
        img_eq := inv.img_eq
        transfo_eq := inv.transfo_eq
        error_eq := inv.error_eq
        corres_len := by simp only [List.length_set]; exact inv.corres_len
        nn_len := by simp only [List.length_set]; exact inv.nn_len
        corres_other := fun k hk => by
          show (a.1.corres.set i m)[k]? = s.corres[k]?
          rw [List.getElem?_set_ne (Ne.symm hk)]; exact inv.corres_other k hk
        nn_other := fun k hk => by
          show (a.1.ps2_NN2img.set i q)[k]? = s.ps2_NN2img[k]?
          rw [List.getElem?_set_ne (Ne.symm hk)]; exact inv.nn_other k hk
        le_INF := le_of_lt (lt_of_lt_of_le hlt inv.le_INF)
        le_seen := fun j r hj hr => by
          show env.dist p q ≤ env.dist p r
          rcases Nat.lt_succ_iff_lt_or_eq.mp hj with h | h
          · exact le_trans (le_of_lt hlt) (inv.le_seen j r h hr)
          · subst h; rw [hq] at hr; cases hr; exact le_refl _
        best := Or.inr ⟨m, q, Nat.lt_succ_self m, hq, rfl, lt_of_lt_of_le hlt inv.le_INF,
          List.getElem?_set_self hc', List.getElem?_set_self hn',
          fun k r hk hr => lt_of_lt_of_le hlt (inv.le_seen k r hk hr)⟩ }
  · rw [if_neg hlt]
    refine ⟨a, rfl, ?_⟩
    exact
      { ps1_eq := inv.ps1_eq
        ps2_eq := inv.ps2_eq
        img_eq := inv.img_eq
        transfo_eq := inv.transfo_eq
        error_eq := inv.error_eq
        corres_len := inv.corres_len
        nn_len := inv.nn_len
        corres_other := inv.corres_other
        nn_other := inv.nn_other
        le_INF := inv.le_INF
        le_seen := fun j r hj hr => by
          rcases Nat.lt_succ_iff_lt_or_eq.mp hj with h | h
          · exact inv.le_seen j r h hr
          · subst h; rw [hq] at hr; cases hr; exact not_lt.mp hlt
        best := by
          rcases inv.best with h | ⟨j, r, hj, h⟩
          · exact Or.inl h
          · exact Or.inr ⟨j, r, Nat.lt_succ_of_lt hj, h⟩ }

/-- The inner loop of `compute_corres` at source index `i` completes, and the
invariant holds for all target indices. -/
theorem corres_point_spec {α : Type} [LinearOrderedField α] (env : Env α) (s : State α)
    (i : Nat) (p : Point α) (hp : s.ps1_img[i]? = some p)
    (hc : i < s.corres.length) (hn : i < s.ps2_NN2img.length) :
    ∃ a, corres_point env s i = some { a.1 with error := s.error + a.2 } ∧
      ScanInv env s i p s.ps2.length a := by
  obtain ⟨a, ha, inv⟩ := foldlM_range_invariant (corres_test env i) (ScanInv env s i p)
    s.ps2.length (s, INF) (scanInv_init env s i p)
    (fun k b hk hb => scanInv_step env s i p hp hc hn k b hk hb)
  refine ⟨a, ?_, inv⟩
  unfold corres_point
  rw [ha, Option.map_some', inv.error_eq]

/-- A running minimum is at most its initial value. -/
theorem foldl_min_le_init {α : Type} [LinearOrderedField α] (d : Point α → α)
    (l : List (Point α)) (e : α) : l.foldl (fun e q => min e (d q)) e ≤ e := by
  induction l generalizing e with
  | nil => exact le_refl _
  | cons q qs ih => exact le_trans (ih _) (min_le_left _ _)

/-- A running minimum is at most every value it has met. -/
theorem foldl_min_le_mem {α : Type} [LinearOrderedField α] (d : Point α → α)
    (l : List (Point α)) (e : α) (q : Point α) (hq : q ∈ l) :
    l.foldl (fun e q => min e (d q)) e ≤ d q := by
  induction l generalizing e with
  | nil => cases hq
  | cons r rs ih =>
    rcases List.mem_cons.mp hq with h | h
    · subst h
      exact le_trans (foldl_min_le_init d rs _) (min_le_right _ _)
    · exact ih _ h

/-- A running minimum is its initial value or one of the values it has met. -/
theorem foldl_min_attained {α : Type} [LinearOrderedField α] (d : Point α → α)
    (l : List (Point α)) (e : α) :
    l.foldl (fun e q => min e (d q)) e = e ∨
      ∃ q ∈ l, l.foldl (fun e q => min e (d q)) e = d q := by
  induction l generalizing e with
  | nil => exact Or.inl rfl
  | cons r rs ih =>
    rcases ih (min e (d r)) with h | ⟨q, hq, h⟩
    · rcases min_choice e (d r) with h2 | h2
      · left; show rs.foldl _ (min e (d r)) = e; rw [h, h2]
      · right; exact ⟨r, List.mem_cons_self _ _, by show rs.foldl _ (min e (d r)) = d r; rw [h, h2]⟩
    · right; exact ⟨q, List.mem_cons_of_mem _ hq, h⟩

/-- The `error_i_min` that the inner loop ends with is the capped minimum. -/
theorem scanInv_capped_min {α : Type} [LinearOrderedField α] (env : Env α) (s : State α)
    (i : Nat) (p : Point α) (a : State α × α) (inv : ScanInv env s i p s.ps2.length a) :
    a.2 = capped_min env s.ps2 p := by
  have hall : ∀ q ∈ s.ps2, a.2 ≤ env.dist p q := by
    intro q hq
    obtain ⟨j, hj⟩ := List.mem_iff_getElem?.mp hq
    have hjl : j < s.ps2.length := by
      rcases List.getElem?_eq_some_iff.mp hj with ⟨h, _⟩
      exact h
    exact inv.le_seen j q hjl hj
  apply le_antisymm
  · rcases foldl_min_attained (env.dist p) s.ps2 INF with h | ⟨q, hq, h⟩
    · unfold capped_min; rw [h]; exact inv.le_INF
    · unfold capped_min; rw [h]; exact hall q hq
  · rcases inv.best with ⟨h, _⟩ | ⟨j, q, _, hq, h, _⟩
    · rw [h]; exact foldl_min_le_init _ _ _
    · rw [h]
      exact foldl_min_le_mem (env.dist p) s.ps2 INF q (List.mem_iff_getElem?.mpr ⟨j, hq⟩)

/-- The outer invariant holds before the first source point. -/
theorem matchInv_init {α : Type} [LinearOrderedField α] (env : Env α) (st : State α) :
    MatchInv env st 0 st where
  ps1_eq := rfl
  ps2_eq := rfl
  img_eq := rfl
  transfo_eq := rfl
  corres_len := rfl
  nn_len := rfl
  corres_rest := fun _ _ => rfl
  nn_rest := fun _ _ => rfl
  error_eq := by simp
  point := fun i _ hi _ => absurd hi (Nat.not_lt_zero i)

/-- The body of the outer loop at source index `n` completes and keeps the
invariant. -/
theorem matchInv_step {α : Type} [LinearOrderedField α] (env : Env α) (st : State α)
    (himg : st.ps1_img.length = st.ps1.length)
    (hcl : st.corres.length = st.ps1.length)
    (hnl : st.ps2_NN2img.length = st.ps1.length)
    (n : Nat) (s : State α) (hn : n < st.ps1.length) (inv : MatchInv env st n s) :
    ∃ s', corres_point env s n = some s' ∧ MatchInv env st (n + 1) s' := by
  obtain ⟨p, hp⟩ : ∃ p, st.ps1_img[n]? = some p :=
    ⟨st.ps1_img[n], List.getElem?_eq_getElem (by rw [himg]; exact hn)⟩
  obtain ⟨a, ha, sc⟩ := corres_point_spec env s n p (by rw [inv.img_eq]; exact hp)
    (by rw [inv.corres_len, hcl]; exact hn) (by rw [inv.nn_len, hnl]; exact hn)
  have hcap : a.2 = capped_min env st.ps2 p := by
    rw [scanInv_capped_min env s n p a sc, inv.ps2_eq]
  have hmem : ∀ q ∈ st.ps2, a.2 ≤ env.dist p q := by
    intro q hq
    rw [hcap]
    exact foldl_min_le_mem (env.dist p) st.ps2 INF q hq
  refine ⟨_, ha, ?_⟩
  exact
    { ps1_eq := sc.ps1_eq.trans inv.ps1_eq
      ps2_eq := sc.ps2_eq.trans inv.ps2_eq
      img_eq := sc.img_eq.trans inv.img_eq
      transfo_eq := sc.transfo_eq.trans inv.transfo_eq
      corres_len := sc.corres_len.trans inv.corres_len
      nn_len := sc.nn_len.trans inv.nn_len
      corres_rest := fun k hk =>
        (sc.corres_other k (by omega)).trans (inv.corres_rest k (by omega))
      nn_rest := fun k hk =>
        (sc.nn_other k (by omega)).trans (inv.nn_rest k (by omega))
      error_eq := by
        show s.error + a.2 = _
        rw [inv.error_eq, List.take_succ, hp, hcap]
        simp [add_assoc]
      point := fun i r hi hr => by
        rcases Nat.lt_succ_iff_lt_or_eq.mp hi with h | h
        · have hne : i ≠ n := by omega
          rcases inv.point i r h hr with ⟨h1, h2, h3⟩ | ⟨j, q, h1, h2, h3, h4, h5⟩
          · exact Or.inl ⟨h1, (sc.corres_other i hne).trans h2, (sc.nn_other i hne).trans h3⟩
          · exact Or.inr ⟨j, q, h1, h2, (sc.corres_other i hne).trans h3,
              (sc.nn_other i hne).trans h4, h5⟩
        · subst h
          rw [hp] at hr
          cases hr
          rcases sc.best with ⟨h1, h2, h3⟩ | ⟨j, q, _, h1, h2, h3, h4, h5, h6⟩
          · refine Or.inl ⟨fun q hq => ?_, h2.trans (inv.corres_rest i (le_refl i)),
              h3.trans (inv.nn_rest i (le_refl i))⟩
            rw [← h1]
            exact hmem q hq
          · rw [inv.ps2_eq] at h1
            refine Or.inr ⟨j, q, h1, by rw [← h2]; exact h3, h4, h5,
              fun r hr => by rw [← h2]; exact hmem r hr,
              fun k r hk hr => by rw [← h2]; exact h6 k r hk (by rw [inv.ps2_eq]; exact hr)⟩ }

/-- On an object whose `corres` and `ps2_NN2img` have the size of `ps1`, and
with a transform that yields a set of the size of its input, `compute_corres`
completes and establishes `CorresPost`. -/
theorem compute_corres_spec {α : Type} [LinearOrderedField α] (env : Env α) (st : State α)
    (happ : (env.app st.transfo st.ps1).length = st.ps1.length)
    (hcl : st.corres.length = st.ps1.length)
    (hnl : st.ps2_NN2img.length = st.ps1.length) :
    ∃ s, compute_corres env st = some s ∧ CorresPost env st s := by
  obtain ⟨s, hs, inv⟩ := foldlM_range_invariant (corres_point env)
    (MatchInv env { st with error := 0, ps1_img := env.app st.transfo st.ps1 })
    st.ps1.length { st with error := 0, ps1_img := env.app st.transfo st.ps1 }
    (matchInv_init env _)
    (fun k b hk hb => matchInv_step env
      { st with error := 0, ps1_img := env.app st.transfo st.ps1 } happ hcl hnl k b hk hb)
  refine ⟨s, hs, ?_⟩
  exact
    { ps1_eq := inv.ps1_eq
      ps2_eq := inv.ps2_eq
      transfo_eq := inv.transfo_eq
      img_eq := inv.img_eq
      corres_len := inv.corres_len
      nn_len := inv.nn_len
      error_eq := by
        have h := inv.error_eq
        simp only [] at h
        rw [h, zero_add, ← happ, List.take_length]
      point := fun i p hp => by
        have hi : i < st.ps1.length := by
          rcases List.getElem?_eq_some_iff.mp hp with ⟨h, _⟩
          rw [happ] at h
          exact h
        rcases inv.point i p hi hp with h | h
        · exact Or.inl h
        · exact Or.inr h }

/-- Below `INF` the search is right: if some target is closer than `INF` to the
transformed source point `p` of index `i`, then after `compute_corres` the
index `corres[i]` designates a nearest target, the first one in scan order,
and `ps2_NN2img[i]` is that target. -/
theorem compute_corres_nearest_below_INF {α : Type} [LinearOrderedField α] (env : Env α)
    (st : State α)
    (happ : (env.app st.transfo st.ps1).length = st.ps1.length)
    (hcl : st.corres.length = st.ps1.length)
    (hnl : st.ps2_NN2img.length = st.ps1.length)
    (i : Nat) (p : Point α) (hp : (env.app st.transfo st.ps1)[i]? = some p)
    (t : Point α) (ht : t ∈ st.ps2) (hlt : env.dist p t < INF) :
    ∃ s, compute_corres env st = some s ∧ s.ps1_img[i]? = some p ∧
      ∃ j q, s.corres[i]? = some j ∧ s.ps2[j]? = some q ∧ s.ps2_NN2img[i]? = some q ∧
        (∀ r ∈ s.ps2, env.dist p q ≤ env.dist p r) ∧
        (∀ k r, k < j → s.ps2[k]? = some r → env.dist p q < env.dist p r) := by
  obtain ⟨s, hs, post⟩ := compute_corres_spec env st happ hcl hnl
  refine ⟨s, hs, by rw [post.img_eq]; exact hp, ?_⟩
  rcases post.point i p hp with ⟨h1, _, _⟩ | ⟨j, q, h1, _, h3, h4, h5, h6⟩
  · exact absurd hlt (not_lt.mpr (h1 t ht))
  · rw [post.ps2_eq]
    exact ⟨j, q, h3, h1, h4, h5, h6⟩

/-! ## `compute_corres` with no target -/

/-- With no target the body of the outer loop only adds `INF` to `error`. -/
theorem corres_point_no_target {α : Type} [LinearOrderedField α] (env : Env α)
    (s : State α) (i : Nat) (h : s.ps2 = []) :
    corres_point env s i = some { s with error := s.error + INF } := by
  obtain ⟨ps1, ps2, img, nn, co, tr, er⟩ := s
  simp only at h
  subst h
  rfl

/-- With no target `n` rounds of the outer loop add `n * INF` to `error`. -/
theorem corres_loop_no_target {α : Type} [LinearOrderedField α] (env : Env α)
    (n : Nat) (s : State α) (h : s.ps2 = []) :
    (List.range n).foldlM (corres_point env) s =
      some { s with error := s.error + (n : α) * INF } := by
  induction n with
  | zero => simp
  | succ k ih =>
    have hk := corres_point_no_target env { s with error := s.error + (k : α) * INF } k h
    rw [List.range_succ, List.foldlM_append, ih]
    simp only [Option.bind_eq_bind, Option.some_bind, List.foldlM_cons, List.foldlM_nil]
    rw [hk]
    simp only [Option.pure_def, Option.some_bind, Option.some.injEq]
    congr 1
    push_cast
    ring

/-- With no target `compute_corres` completes: it only overwrites `ps1_img`
and sets `error` to `ps1.size() * INF`. -/
theorem compute_corres_no_target {α : Type} [LinearOrderedField α] (env : Env α)
    (st : State α) (h : st.ps2 = []) :
    compute_corres env st =
      some { st with ps1_img := env.app st.transfo st.ps1
                     error := (st.ps1.length : α) * INF } := by
  have hl := corres_loop_no_target env st.ps1.length
    { st with error := 0, ps1_img := env.app st.transfo st.ps1 } h
  unfold compute_corres
  simp only [] at hl ⊢
  rw [hl, zero_add]

/-- C4 (amended): with an empty target set `compute_corres` reports no
failure: it completes, leaves `corres` and `ps2_NN2img` as they were, stores
the transformed source in `ps1_img` and sets `error` to `ps1.size() * INF`;
the iteration of `perform` then runs `get_optimal_similarity` on that state
and stores its result in `transfo`. -/
theorem compute_corres_empty_target {α : Type} [LinearOrderedField α] (env : Env α)
    (st : State α) (h : st.ps2 = []) :
    compute_corres env st =
      some { st with ps1_img := env.app st.transfo st.ps1
                     error := (st.ps1.length : α) * INF } ∧
    perform_iteration env st =
      some { (get_optimal_similarity env
                { st with ps1_img := env.app st.transfo st.ps1
                          error := (st.ps1.length : α) * INF }).2 with
             transfo := (get_optimal_similarity env
                { st with ps1_img := env.app st.transfo st.ps1
                          error := (st.ps1.length : α) * INF }).1 } := by
  refine ⟨compute_corres_no_target env st h, ?_⟩
  unfold perform_iteration
  rw [compute_corres_no_target env st h]
  rfl

/-- Witness of C4 (amended): the object `DBICP([(3,4)], [])`. -/
theorem compute_corres_empty_target_witness :
    (DBICP_new exEnv [⟨3, 4⟩] []).ps2 = [] ∧
    compute_corres exEnv (DBICP_new exEnv [⟨3, 4⟩] []) =
      some { DBICP_new exEnv [⟨3, 4⟩] [] with
             ps1_img := exEnv.app (DBICP_new exEnv [⟨3, 4⟩] []).transfo [⟨3, 4⟩]
             error := ((DBICP_new exEnv [⟨3, 4⟩] []).ps1.length : ℚ) * INF } :=
  ⟨rfl, (compute_corres_empty_target exEnv (DBICP_new exEnv [⟨3, 4⟩] []) rfl).1⟩

/-- C4 (counterexample): on the object `DBICP([(0,0), (1,0)], [])`, whose target
set is empty and whose source set is not, `compute_corres` reports no failure:
it completes with the indices `[0, 0]`, the matched targets
`[Point(), Point()]` and the error `2 * INF = 2e8`, and the iteration of
`perform` completes too, with the transform that `get_optimal_similarity`
computes on that state. -/
theorem compute_corres_empty_target_completes :
    noTargetState.ps1 ≠ [] ∧ noTargetState.ps2 = [] ∧
    ∃ s, compute_corres exEnv noTargetState = some s ∧
      s.corres = [0, 0] ∧ s.ps2_NN2img = [⟨0, 0⟩, ⟨0, 0⟩] ∧ s.error = 200000000 ∧
      (perform_iteration exEnv noTargetState).map State.transfo =
        some (get_optimal_similarity exEnv s).1 := by
  refine ⟨by simp [noTargetState, DBICP_new], rfl,
    _, compute_corres_no_target exEnv noTargetState rfl, rfl, rfl, ?_, ?_⟩
  · simp [noTargetState, DBICP_new, INF]; norm_num
  · unfold perform_iteration
    rw [compute_corres_no_target exEnv noTargetState rfl]
    rfl

/-! ## `compute_corres` with all targets beyond `INF` -/

/-- C1 (evaluation at the failing input): on `farState1`, the first search of
`perform` for `DBICP([(0,0)], [(5e8,0), (-2e8,0), (-3e8,0)])`, `compute_corres`
leaves `corres[0] = 0`, which designates the target at distance `5e8`, although
target `1` is at distance `2e8`: no distance is below `INF = 1e8`, so nothing
is assigned. -/
theorem compute_corres_far_target_not_nearest :
    compute_corres exEnv farState1 = some
      { ps1 := [⟨0, 0⟩]
        ps2 := [⟨500000000, 0⟩, ⟨-200000000, 0⟩, ⟨-300000000, 0⟩]
        ps1_img := [⟨0, 0⟩]
        ps2_NN2img := [⟨0, 0⟩]
        corres := [0]
        transfo := ⟨0, 0, 0, 0⟩
        error := 100000000 } ∧
    exEnv.dist ⟨0, 0⟩ ⟨-200000000, 0⟩ < exEnv.dist ⟨0, 0⟩ ⟨500000000, 0⟩ := by
  constructor
  · simp [farState1, exStart, perform_init, compute_corres, corres_point, corres_test,
      DBICP_new, exEnv, INF, List.range, List.range.loop]
    norm_num
  · simp [exEnv]
    norm_num

/-- C2 (evaluation at the failing input): on `farState2` the targets `1` and
`2` are at the same minimal distance `2e8` of the transformed source point,
and `compute_corres` leaves `corres[0] = 0`, not the smallest of them, `1`.
On `staleState`, a second search with the translation by `(2e8, 0)` leaves the
index `1` of the first search, although target `0` is at distance `2e8` and
target `1` at `3e8`. -/
theorem compute_corres_far_tie_not_smallest :
    compute_corres exEnv farState2 = some
      { ps1 := [⟨0, 0⟩]
        ps2 := [⟨0, 400000000⟩, ⟨200000000, 0⟩, ⟨-200000000, 0⟩, ⟨0, -400000000⟩]
        ps1_img := [⟨0, 0⟩]
        ps2_NN2img := [⟨0, 0⟩]
        corres := [0]
        transfo := ⟨0, 0, 0, 0⟩
        error := 100000000 } ∧
    exEnv.dist ⟨0, 0⟩ ⟨200000000, 0⟩ = exEnv.dist ⟨0, 0⟩ ⟨-200000000, 0⟩ ∧
    exEnv.dist ⟨0, 0⟩ ⟨200000000, 0⟩ < exEnv.dist ⟨0, 0⟩ ⟨0, 400000000⟩ ∧
    exEnv.dist ⟨0, 0⟩ ⟨200000000, 0⟩ < exEnv.dist ⟨0, 0⟩ ⟨0, -400000000⟩ ∧
    (compute_corres exEnv staleState).bind
        (fun s => compute_corres exEnv { s with transfo := Similarity 200000000 0 0 0 }) = some
      { ps1 := [⟨0, 0⟩]
        ps2 := [⟨0, 0⟩, ⟨500000000, 0⟩]
        ps1_img := [⟨200000000, 0⟩]
        ps2_NN2img := [⟨500000000, 0⟩]
        corres := [1]
        transfo := ⟨200000000, 0, 0, 0⟩
        error := 100000000 } ∧
    exEnv.dist ⟨200000000, 0⟩ ⟨0, 0⟩ ≤ exEnv.dist ⟨200000000, 0⟩ ⟨500000000, 0⟩ := by
  refine ⟨?_, ?_, ?_, ?_, ?_, ?_⟩
  · simp [farState2, exStart, perform_init, compute_corres, corres_point, corres_test,
      DBICP_new, exEnv, INF, List.range, List.range.loop]
    norm_num
  · simp [exEnv]
  · simp [exEnv]
    norm_num
  · simp [exEnv]
    norm_num
  · norm_num [staleState, compute_corres, corres_point, corres_test,
      DBICP_new, exEnv, INF, List.range, List.range.loop]
  · simp [exEnv]
    norm_num

/-- C3 (evaluation at the failing input): after `compute_corres` on `farState3`
the stored `error` is `INF = 1e8`, although both targets are at distance `3e8`
of the transformed source point, so that the sum of the minimum distances is
`3e8`. -/
theorem compute_corres_far_error_not_min_sum :
    compute_corres exEnv farState3 = some
      { ps1 := [⟨0, 0⟩]
        ps2 := [⟨300000000, 0⟩, ⟨-300000000, 0⟩]
        ps1_img := [⟨0, 0⟩]
        ps2_NN2img := [⟨0, 0⟩]
        corres := [0]
        transfo := ⟨0, 0, 0, 0⟩
        error := 100000000 } ∧
    exEnv.dist ⟨0, 0⟩ ⟨300000000, 0⟩ = 300000000 ∧
    exEnv.dist ⟨0, 0⟩ ⟨-300000000, 0⟩ = 300000000 := by
  refine ⟨?_, ?_, ?_⟩
  · norm_num [farState3, exStart, perform_init, compute_corres, corres_point, corres_test,
      DBICP_new, exEnv, INF, List.range, List.range.loop]
  · norm_num [exEnv]
  · norm_num [exEnv]

/-- C5 (evaluation at the failing input): after `compute_corres` on `farState5`
the stored matched target `ps2_NN2img[0]` is still `Point()`, here the origin,
while the target at the stored index `corres[0] = 0` is `(4e8, 0)`. -/
theorem compute_corres_far_matched_point_not_indexed :
    ∃ s, compute_corres exEnv farState5 = some s ∧
      s.ps2_NN2img[0]? = some ⟨0, 0⟩ ∧ s.corres[0]? = some 0 ∧
      s.ps2[0]? = some ⟨400000000, 0⟩ ∧
      (⟨0, 0⟩ : Point ℚ) ≠ ⟨400000000, 0⟩ := by
  refine ⟨{ ps1 := [⟨0, 0⟩]
            ps2 := [⟨400000000, 0⟩, ⟨-400000000, 0⟩]
            ps1_img := [⟨0, 0⟩]
            ps2_NN2img := [⟨0, 0⟩]
            corres := [0]
            transfo := ⟨0, 0, 0, 0⟩
            error := 100000000 }, ?_, rfl, rfl, rfl, ?_⟩
  · norm_num [farState5, exStart, perform_init, compute_corres, corres_point, corres_test,
      DBICP_new, exEnv, INF, List.range, List.range.loop]
  · simp

/-! ## Frame and bounds of the cost -/

/-- C14: frame of the optimiser.  Every call of `cost`, and therefore a whole
run of `get_optimal_similarity_using_gd`, leaves `ps2_NN2img`, `corres`,
`error`, `ps1`, `ps2` and `transfo` unchanged; only `ps1_img` is overwritten. -/
theorem optimiser_frame {α : Type} [LinearOrderedField α] (env : Env α)
    (T : Transfo α) (st : State α) :
    (cost env T st).2 = { st with ps1_img := env.app T st.ps1 } ∧
    (get_optimal_similarity_using_gd env st).2 =
      { st with ps1_img := (get_optimal_similarity_using_gd env st).2.ps1_img } := by
  refine ⟨rfl, ?_⟩
  rw [gd_is_one_step]
  unfold gd_step
  simp only [cost]

/-- The polynomial branch of the loss is non-negative. -/
theorem rho_poly_nonneg {α : Type} [LinearOrderedField α] (u : α) (h : |u| ≤ BT_A) :
    0 ≤ BT_A * BT_A / 6 * (1 - (1 - (u / BT_A) ^ 2) ^ 3) := by
  have ha : (0 : α) < BT_A := BT_A_pos
  have hc : (0 : α) ≤ BT_A * BT_A / 6 := by positivity
  have h0 : (0 : α) ≤ 1 - (u / BT_A) ^ 2 := sub_nonneg.mpr (sq_ratio_le_one u h)
  have h1 : 1 - (u / BT_A) ^ 2 ≤ 1 := by linarith [sq_nonneg (u / BT_A)]
  have h2 : (1 - (u / BT_A) ^ 2) ^ 3 ≤ 1 := pow_le_one₀ h0 h1
  exact mul_nonneg hc (by linarith)

/-- Bounds of the loss, on both branches. -/
theorem rho_bounds {α : Type} [LinearOrderedField α] (u : α) :
    0 ≤ Beaton_Tukey_rho u ∧ Beaton_Tukey_rho u ≤ BT_A ^ 2 / 6 := by
  have ha : (0 : α) < BT_A := BT_A_pos
  have hc : (0 : α) ≤ BT_A * BT_A / 6 := by positivity
  by_cases hu : BT_A < |u|
  · rw [rho_of_abs_gt u hu, sq (BT_A : α)]
    exact ⟨hc, le_refl _⟩
  · rw [rho_of_abs_le u (not_lt.mp hu), sq (BT_A : α)]
    exact ⟨rho_poly_nonneg u (not_lt.mp hu), rho_poly_le u (not_lt.mp hu)⟩

/-- C18: the cost is bounded.  For every `u`, `0 ≤ Beaton_Tukey_rho u ≤ a^2 / 6`
with `a = BT_A = 1e7`; hence `0 ≤ cost T ≤ a^2 / 6` for every transform `T`,
every source set and every matched-target set. -/
theorem cost_bounded {α : Type} [LinearOrderedField α] (u : α) (env : Env α)
    (T : Transfo α) (st : State α) :
    (0 ≤ Beaton_Tukey_rho u ∧ Beaton_Tukey_rho u ≤ BT_A ^ 2 / 6) ∧
    (0 ≤ (cost env T st).1 ∧ (cost env T st).1 ≤ BT_A ^ 2 / 6) :=
  ⟨rho_bounds u, rho_bounds (env.set_dist (env.app T st.ps1) st.ps2_NN2img)⟩

/-! ## Warm start -/

/-- With `DBICP_NITER_MAX = 2`, `perform` is its initialisation followed by two
executions of the loop body. -/
theorem perform_two_iterations {α : Type} [LinearOrderedField α] (env : Env α)
    (st : State α) :
    perform env st =
      (perform_iteration env (perform_init env st)).bind (perform_iteration env) := by
  unfold perform DBICP_NITER_MAX
  rw [show List.range 2 = [0, 1] from rfl]
  simp only [List.foldlM_cons, List.foldlM_nil, Option.bind_eq_bind]
  cases perform_iteration env (perform_init env st) with
  | none => rfl
  | some s =>
    simp only [Option.some_bind]
    cases perform_iteration env s <;> rfl

/-- C17: zero gradient under saturation.  If the aggregate distance between the
transformed source and the matched-target set exceeds `a = 1e7` in absolute
value for the current parameters and for each perturbed parameter vector of the
pass, `get_optimal_similarity_using_gd` returns exactly the parameters
`(transfo.t11, t12, t13, t21)` it started from; more generally, a parameter is
left unchanged whenever `cost` at the perturbed parameter equals `cost` at the
parameter itself (the earlier parameters being the already-updated ones). -/
theorem gd_zero_gradient {α : Type} [LinearOrderedField α] (env : Env α) (st : State α) :
    ((BT_A < |env.set_dist (env.app (Similarity st.transfo.t11 st.transfo.t12
          st.transfo.t13 st.transfo.t21) st.ps1) st.ps2_NN2img| ∧
      BT_A < |env.set_dist (env.app (Similarity (st.transfo.t11 + EPSILON_0) st.transfo.t12
          st.transfo.t13 st.transfo.t21) st.ps1) st.ps2_NN2img| ∧
      BT_A < |env.set_dist (env.app (Similarity st.transfo.t11 (st.transfo.t12 + EPSILON_1)
          st.transfo.t13 st.transfo.t21) st.ps1) st.ps2_NN2img| ∧
      BT_A < |env.set_dist (env.app (Similarity st.transfo.t11 st.transfo.t12
          (st.transfo.t13 + EPSILON_1) st.transfo.t21) st.ps1) st.ps2_NN2img| ∧
      BT_A < |env.set_dist (env.app (Similarity st.transfo.t11 st.transfo.t12
          st.transfo.t13 (st.transfo.t21 + EPSILON_0)) st.ps1) st.ps2_NN2img|) →
      (get_optimal_similarity_using_gd env st).1 =
        Similarity st.transfo.t11 st.transfo.t12 st.transfo.t13 st.transfo.t21) ∧
    ((cost env (Similarity (st.transfo.t11 + EPSILON_0) st.transfo.t12 st.transfo.t13
          st.transfo.t21) st).1 =
        (cost env (Similarity st.transfo.t11 st.transfo.t12 st.transfo.t13
          st.transfo.t21) st).1 →
      (get_optimal_similarity_using_gd env st).1.t11 = st.transfo.t11) ∧
    ((cost env (Similarity (get_optimal_similarity_using_gd env st).1.t11
          (st.transfo.t12 + EPSILON_1) st.transfo.t13 st.transfo.t21) st).1 =
        (cost env (Similarity (get_optimal_similarity_using_gd env st).1.t11
          st.transfo.t12 st.transfo.t13 st.transfo.t21) st).1 →
      (get_optimal_similarity_using_gd env st).1.t12 = st.transfo.t12) ∧
    ((cost env (Similarity (get_optimal_similarity_using_gd env st).1.t11
          (get_optimal_similarity_using_gd env st).1.t12
          (st.transfo.t13 + EPSILON_1) st.transfo.t21) st).1 =
        (cost env (Similarity (get_optimal_similarity_using_gd env st).1.t11
          (get_optimal_similarity_using_gd env st).1.t12
          st.transfo.t13 st.transfo.t21) st).1 →
      (get_optimal_similarity_using_gd env st).1.t13 = st.transfo.t13) ∧
    ((cost env (Similarity (get_optimal_similarity_using_gd env st).1.t11
          (get_optimal_similarity_using_gd env st).1.t12
          (get_optimal_similarity_using_gd env st).1.t13
          (st.transfo.t21 + EPSILON_0)) st).1 =
        (cost env (Similarity (get_optimal_similarity_using_gd env st).1.t11
          (get_optimal_similarity_using_gd env st).1.t12
          (get_optimal_similarity_using_gd env st).1.t13 st.transfo.t21) st).1 →
      (get_optimal_similarity_using_gd env st).1.t21 = st.transfo.t21) := by
  have hgd := gd_is_one_step env st
  have key : ∀ x y : α, x = y → ∀ (p r e : α), p - r * (x - y) / e = p := by
    intro x y h p r e
    rw [h, sub_self, mul_zero, zero_div, sub_zero]
  refine ⟨?_, ?_, ?_, ?_, ?_⟩
  · rintro ⟨h0, h1, h2, h3, h4⟩
    rw [hgd]
    unfold gd_step
    simp only [cost_fst, (cost_snd_frame env _ _).1, (cost_snd_frame env _ _).2]
    have e1 := key _ _ ((rho_of_abs_gt _ h1).trans (rho_of_abs_gt _ h0).symm)
      st.transfo.t11 RHO_0 EPSILON_0
    rw [e1]
    have e2 := key _ _ ((rho_of_abs_gt _ h2).trans (rho_of_abs_gt _ h0).symm)
      st.transfo.t12 RHO_1 EPSILON_1
    rw [e2]
    have e3 := key _ _ ((rho_of_abs_gt _ h3).trans (rho_of_abs_gt _ h0).symm)
      st.transfo.t13 RHO_1 EPSILON_1
    rw [e3]
    have e4 := key _ _ ((rho_of_abs_gt _ h4).trans (rho_of_abs_gt _ h0).symm)
      st.transfo.t21 RHO_0 EPSILON_0
    rw [e4]
  · intro h
    rw [hgd]
    exact key _ _ h st.transfo.t11 RHO_0 EPSILON_0
  · rw [hgd]
    intro h
    exact key _ _ h st.transfo.t12 RHO_1 EPSILON_1
  · rw [hgd]
    intro h
    exact key _ _ h st.transfo.t13 RHO_1 EPSILON_1
  · rw [hgd]
    intro h
    exact key _ _ h st.transfo.t21 RHO_0 EPSILON_0

/-- Witness of C17: on `saturatedState` the aggregate distance is near `3e7` for
the current and the four perturbed parameter vectors, and the pass returns the
parameters `(0, 0, 0, 0)` it started from. -/
theorem gd_zero_gradient_witness :
    ((BT_A : ℚ) < |exEnv.set_dist (exEnv.app (Similarity saturatedState.transfo.t11
          saturatedState.transfo.t12 saturatedState.transfo.t13 saturatedState.transfo.t21)
          saturatedState.ps1) saturatedState.ps2_NN2img| ∧
      BT_A < |exEnv.set_dist (exEnv.app (Similarity (saturatedState.transfo.t11 + EPSILON_0)
          saturatedState.transfo.t12 saturatedState.transfo.t13 saturatedState.transfo.t21)
          saturatedState.ps1) saturatedState.ps2_NN2img| ∧
      BT_A < |exEnv.set_dist (exEnv.app (Similarity saturatedState.transfo.t11
          (saturatedState.transfo.t12 + EPSILON_1) saturatedState.transfo.t13
          saturatedState.transfo.t21) saturatedState.ps1) saturatedState.ps2_NN2img| ∧
      BT_A < |exEnv.set_dist (exEnv.app (Similarity saturatedState.transfo.t11
          saturatedState.transfo.t12 (saturatedState.transfo.t13 + EPSILON_1)
          saturatedState.transfo.t21) saturatedState.ps1) saturatedState.ps2_NN2img| ∧
      BT_A < |exEnv.set_dist (exEnv.app (Similarity saturatedState.transfo.t11
          saturatedState.transfo.t12 saturatedState.transfo.t13
          (saturatedState.transfo.t21 + EPSILON_0)) saturatedState.ps1)
          saturatedState.ps2_NN2img|) ∧
    (get_optimal_similarity_using_gd exEnv saturatedState).1 = Similarity 0 0 0 0 := by
  have h : ((BT_A : ℚ) < |exEnv.set_dist (exEnv.app (Similarity saturatedState.transfo.t11
          saturatedState.transfo.t12 saturatedState.transfo.t13 saturatedState.transfo.t21)
          saturatedState.ps1) saturatedState.ps2_NN2img| ∧
      BT_A < |exEnv.set_dist (exEnv.app (Similarity (saturatedState.transfo.t11 + EPSILON_0)
          saturatedState.transfo.t12 saturatedState.transfo.t13 saturatedState.transfo.t21)
          saturatedState.ps1) saturatedState.ps2_NN2img| ∧
      BT_A < |exEnv.set_dist (exEnv.app (Similarity saturatedState.transfo.t11
          (saturatedState.transfo.t12 + EPSILON_1) saturatedState.transfo.t13
          saturatedState.transfo.t21) saturatedState.ps1) saturatedState.ps2_NN2img| ∧
      BT_A < |exEnv.set_dist (exEnv.app (Similarity saturatedState.transfo.t11
          saturatedState.transfo.t12 (saturatedState.transfo.t13 + EPSILON_1)
          saturatedState.transfo.t21) saturatedState.ps1) saturatedState.ps2_NN2img| ∧
      BT_A < |exEnv.set_dist (exEnv.app (Similarity saturatedState.transfo.t11
          saturatedState.transfo.t12 saturatedState.transfo.t13
          (saturatedState.transfo.t21 + EPSILON_0)) saturatedState.ps1)
          saturatedState.ps2_NN2img|) := by
    norm_num [saturatedState, exEnv, BT_A, EPSILON_0, EPSILON_1, abs_of_pos]
  exact ⟨h, (gd_zero_gradient exEnv saturatedState).1 h⟩

/-! ## Size invariant -/

/-- The constructor establishes the size invariant. -/
theorem sizeInv_new {α : Type} [LinearOrderedField α] (env : Env α) (ps1 ps2 : PointSet α) :
    SizeInv (DBICP_new env ps1 ps2) := by
  unfold SizeInv DBICP_new
  simp

/-- `cost` keeps the size invariant. -/
theorem sizeInv_cost {α : Type} [LinearOrderedField α] (env : Env α)
    (happ : ∀ T ps, (env.app T ps).length = ps.length) (T : Transfo α) (st : State α)
    (h : SizeInv st) : SizeInv (cost env T st).2 :=
  ⟨happ T st.ps1, h.2.1, h.2.2⟩

/-- `get_optimal_similarity_using_gd` keeps the size invariant, and `ps1`, `ps2`. -/
theorem sizeInv_gd {α : Type} [LinearOrderedField α] (env : Env α)
    (happ : ∀ T ps, (env.app T ps).length = ps.length) (st : State α) (h : SizeInv st) :
    SizeInv (get_optimal_similarity_using_gd env st).2 ∧
    (get_optimal_similarity_using_gd env st).2.ps1 = st.ps1 ∧
    (get_optimal_similarity_using_gd env st).2.ps2 = st.ps2 := by
  rw [gd_is_one_step]
  unfold gd_step
  exact ⟨⟨happ _ _, h.2.1, h.2.2⟩, rfl, rfl⟩

/-- `compute_corres` completes on an object with the size invariant and keeps
it, and `ps1`, `ps2`. -/
theorem sizeInv_compute_corres {α : Type} [LinearOrderedField α] (env : Env α)
    (happ : ∀ T ps, (env.app T ps).length = ps.length) (st : State α) (h : SizeInv st) :
    ∃ s, compute_corres env st = some s ∧ SizeInv s ∧ s.ps1 = st.ps1 ∧ s.ps2 = st.ps2 := by
  obtain ⟨s, hs, post⟩ := compute_corres_spec env st (happ _ _) h.2.2 h.2.1
  refine ⟨s, hs, ⟨?_, ?_, ?_⟩, post.ps1_eq, post.ps2_eq⟩
  · rw [post.img_eq, post.ps1_eq]; exact happ _ _
  · rw [post.nn_len, post.ps1_eq]; exact h.2.1
  · rw [post.corres_len, post.ps1_eq]; exact h.2.2

/-- The loop body of `perform` completes on an object with the size invariant
and keeps it, and `ps1`, `ps2`. -/
theorem sizeInv_perform_iteration {α : Type} [LinearOrderedField α] (env : Env α)
    (happ : ∀ T ps, (env.app T ps).length = ps.length) (st : State α) (h : SizeInv st) :
    ∃ s, perform_iteration env st = some s ∧ SizeInv s ∧ s.ps1 = st.ps1 ∧ s.ps2 = st.ps2 := by
  obtain ⟨s1, hs1, inv1, hp1, hp2⟩ := sizeInv_compute_corres env happ st h
  obtain ⟨inv2, hq1, hq2⟩ := sizeInv_gd env happ s1 inv1
  refine ⟨_, by unfold perform_iteration; rw [hs1]; rfl, ?_, ?_, ?_⟩
  · exact inv2
  · exact hq1.trans hp1
  · exact hq2.trans hp2

/-- The initialisation of `perform` establishes the size of `ps1_img` and keeps
the other sizes. -/
theorem sizeInv_perform_init {α : Type} [LinearOrderedField α] (env : Env α)
    (happ : ∀ T ps, (env.app T ps).length = ps.length) (st : State α) (h : SizeInv st) :
    SizeInv (perform_init env st) :=
  ⟨happ _ _, h.2.1, h.2.2⟩

/-- `perform` completes on an object with the size invariant and keeps it. -/
theorem sizeInv_perform {α : Type} [LinearOrderedField α] (env : Env α)
    (happ : ∀ T ps, (env.app T ps).length = ps.length) (st : State α) (h : SizeInv st) :
    ∃ s, perform env st = some s ∧ SizeInv s ∧ s.ps1 = st.ps1 ∧ s.ps2 = st.ps2 := by
  obtain ⟨s1, hs1, inv1, hp1, hp2⟩ :=
    sizeInv_perform_iteration env happ _ (sizeInv_perform_init env happ st h)
  obtain ⟨s2, hs2, inv2, hq1, hq2⟩ := sizeInv_perform_iteration env happ s1 inv1
  refine ⟨s2, ?_, inv2, hq1.trans hp1, hq2.trans hp2⟩
  unfold perform DBICP_NITER_MAX
  rw [show List.range 2 = [0, 1] from rfl]
  simp only [List.foldlM_cons, List.foldlM_nil, Option.bind_eq_bind, hs1, hs2,
    Option.some_bind, Option.pure_def]

/-- C12: size invariant.  Assuming that applying a transform yields a set of the
length of its input, `ps1_img`, `ps2_NN2img` and `corres` have exactly
`ps1.size()` elements after construction, for sets `ps1`, `ps2` of any sizes,
and after every step of `perform` from an object `st` on which they do: after
the initialisation, after `compute_corres` (which completes), after `cost`,
after `get_optimal_similarity`, after the loop body and after the whole of
`perform` (which complete). -/
theorem size_invariant {α : Type} [LinearOrderedField α] (env : Env α)
    (happ : ∀ T ps, (env.app T ps).length = ps.length)
    (ps1 ps2 : PointSet α) (T : Transfo α) (st : State α) (h : SizeInv st) :
    SizeInv (DBICP_new env ps1 ps2) ∧
    SizeInv (perform_init env st) ∧
    (∃ s, compute_corres env st = some s ∧ SizeInv s ∧ s.ps1 = st.ps1) ∧
    SizeInv (cost env T st).2 ∧
    SizeInv (get_optimal_similarity env st).2 ∧
    (∃ s, perform_iteration env st = some s ∧ SizeInv s ∧ s.ps1 = st.ps1) ∧
    (∃ s, perform env st = some s ∧ SizeInv s ∧ s.ps1 = st.ps1) ∧
    (∃ s, perform env (DBICP_new env ps1 ps2) = some s ∧ SizeInv s ∧ s.ps1 = ps1) := by
  refine ⟨sizeInv_new env ps1 ps2, sizeInv_perform_init env happ st h, ?_,
    sizeInv_cost env happ T st h, (sizeInv_gd env happ st h).1, ?_, ?_, ?_⟩
  · obtain ⟨s, hs, inv, hp, _⟩ := sizeInv_compute_corres env happ st h
    exact ⟨s, hs, inv, hp⟩
  · obtain ⟨s, hs, inv, hp, _⟩ := sizeInv_perform_iteration env happ st h
    exact ⟨s, hs, inv, hp⟩
  · obtain ⟨s, hs, inv, hp, _⟩ := sizeInv_perform env happ st h
    exact ⟨s, hs, inv, hp⟩
  · obtain ⟨s, hs, inv, hp, _⟩ := sizeInv_perform env happ _ (sizeInv_new env ps1 ps2)
    exact ⟨s, hs, inv, hp⟩

/-- Witness of C12: three source points and two target points in `exEnv`,
whose transforms map point by point. -/
theorem size_invariant_witness :
    (∀ (T : Transfo ℚ) (ps : PointSet ℚ), (exEnv.app T ps).length = ps.length) ∧
    SizeInv (DBICP_new exEnv [⟨0, 0⟩, ⟨1, 0⟩, ⟨0, 1⟩] [⟨5, 0⟩, ⟨6, 0⟩]) ∧
    ∃ s, perform exEnv (DBICP_new exEnv [⟨0, 0⟩, ⟨1, 0⟩, ⟨0, 1⟩] [⟨5, 0⟩, ⟨6, 0⟩]) = some s ∧
      SizeInv s ∧ s.ps1 = [⟨0, 0⟩, ⟨1, 0⟩, ⟨0, 1⟩] :=
  ⟨fun _ _ => List.length_map _ _,
   sizeInv_new exEnv _ _,
   (size_invariant exEnv (fun _ _ => List.length_map _ _)
      [⟨0, 0⟩, ⟨1, 0⟩, ⟨0, 1⟩] [⟨5, 0⟩, ⟨6, 0⟩] (Similarity 0 0 0 0)
      (DBICP_new exEnv [⟨0, 0⟩, ⟨1, 0⟩, ⟨0, 1⟩] [⟨5, 0⟩, ⟨6, 0⟩])
      (sizeInv_new exEnv _ _)).2.2.2.2.2.2.2⟩

/-! ## The capped error and the entries that are kept -/

/-- C15: with an empty target set, `compute_corres` leaves `corres` and
`ps2_NN2img` exactly as they were and sets `error` to `ps1.size() * INF`
(`INF = 10^8` per source point); for any target set, on an object with the
sizes that the constructor gives, `error` after `compute_corres` is the sum
over the source indices `i` of `min(INF, min_j dist(ps1_img[i], ps2[j]))`
(`capped_min`), and an index whose distances are all `≥ INF` keeps its
previous `corres[i]` and `ps2_NN2img[i]`. -/
theorem compute_corres_capped_error {α : Type} [LinearOrderedField α] (env : Env α)
    (st : State α) :
    (INF : α) = 10 ^ 8 ∧
    (st.ps2 = [] →
      ∃ s, compute_corres env st = some s ∧ s.corres = st.corres ∧
        s.ps2_NN2img = st.ps2_NN2img ∧ s.error = (st.ps1.length : α) * INF) ∧
    ((env.app st.transfo st.ps1).length = st.ps1.length →
      st.corres.length = st.ps1.length → st.ps2_NN2img.length = st.ps1.length →
      ∃ s, compute_corres env st = some s ∧
        s.error = (s.ps1_img.map (capped_min env s.ps2)).sum ∧
        ∀ i p, i < s.ps1.length → s.ps1_img[i]? = some p →
          (∀ q ∈ s.ps2, INF ≤ env.dist p q) →
          s.corres[i]? = st.corres[i]? ∧ s.ps2_NN2img[i]? = st.ps2_NN2img[i]?) := by
  refine ⟨by unfold INF; norm_num, ?_, ?_⟩
  · intro h
    exact ⟨_, compute_corres_no_target env st h, rfl, rfl, rfl⟩
  · intro happ hcl hnl
    obtain ⟨s, hs, post⟩ := compute_corres_spec env st happ hcl hnl
    refine ⟨s, hs, ?_, ?_⟩
    · rw [post.error_eq, post.img_eq, post.ps2_eq]
    · intro i p _ hp hall
      rw [post.img_eq] at hp
      rw [post.ps2_eq] at hall
      rcases post.point i p hp with ⟨_, h2, h3⟩ | ⟨j, q, h1, h2, _⟩
      · exact ⟨h2, h3⟩
      · exact absurd h2 (not_lt.mpr (hall q (List.mem_iff_getElem?.mpr ⟨j, h1⟩)))

/-- Witness of C15: on `noTargetState` the target set is empty; on `farState3`
the sizes are those of the constructor and both targets are at distance `3e8`. -/
theorem compute_corres_capped_error_witness :
    noTargetState.ps2 = [] ∧
    (∃ s, compute_corres exEnv noTargetState = some s ∧ s.corres = noTargetState.corres ∧
      s.ps2_NN2img = noTargetState.ps2_NN2img ∧
      s.error = (noTargetState.ps1.length : ℚ) * INF) ∧
    (exEnv.app farState3.transfo farState3.ps1).length = farState3.ps1.length ∧
    farState3.corres.length = farState3.ps1.length ∧
    farState3.ps2_NN2img.length = farState3.ps1.length ∧
    (∃ s, compute_corres exEnv farState3 = some s ∧
      s.error = (s.ps1_img.map (capped_min exEnv s.ps2)).sum ∧
      ∀ i p, i < s.ps1.length → s.ps1_img[i]? = some p →
        (∀ q ∈ s.ps2, INF ≤ exEnv.dist p q) →
        s.corres[i]? = farState3.corres[i]? ∧
          s.ps2_NN2img[i]? = farState3.ps2_NN2img[i]?) :=
  ⟨rfl, (compute_corres_capped_error exEnv noTargetState).2.1 rfl, rfl, rfl, rfl,
   (compute_corres_capped_error exEnv farState3).2.2 rfl rfl rfl⟩

/-! ## Idempotence -/

/-- Two objects with the same members are the same object. -/
theorem state_ext {α : Type} (a b : State α) (h1 : a.ps1 = b.ps1) (h2 : a.ps2 = b.ps2)
    (h3 : a.ps1_img = b.ps1_img) (h4 : a.ps2_NN2img = b.ps2_NN2img)
    (h5 : a.corres = b.corres) (h6 : a.transfo = b.transfo) (h7 : a.error = b.error) :
    a = b := by
  cases a
  cases b
  simp only at h1 h2 h3 h4 h5 h6 h7
  subst h1 h2 h3 h4 h5 h6 h7
  rfl

/-- Two searches from objects with the same target set give the same entries
at index `i` when the second starts from the result of the first. -/
theorem pointMatched_twice {α : Type} [LinearOrderedField α] (env : Env α)
    (st s1 s2 : State α) (i : Nat) (p : Point α) (hps2 : s1.ps2 = st.ps2)
    (m1 : PointMatched env st s1 i p) (m2 : PointMatched env s1 s2 i p) :
    s2.corres[i]? = s1.corres[i]? ∧ s2.ps2_NN2img[i]? = s1.ps2_NN2img[i]? := by
  rcases m2 with ⟨_, h2, h3⟩ | ⟨j, q, hq, hlt, hc, hn, hmin, hfirst⟩
  · exact ⟨h2, h3⟩
  · rw [hps2] at hq hmin hfirst
    have hqmem : q ∈ st.ps2 := List.mem_iff_getElem?.mpr ⟨j, hq⟩
    rcases m1 with ⟨hall, _, _⟩ | ⟨k, r, hr, _, hc1, hn1, hmin1, hfirst1⟩
    · exact absurd hlt (not_lt.mpr (hall q hqmem))
    · have hrmem : r ∈ st.ps2 := List.mem_iff_getElem?.mpr ⟨k, hr⟩
      have hjk : j = k := by
        rcases Nat.lt_trichotomy j k with h | h | h
        · exact absurd (hfirst1 j q h hq) (not_lt.mpr (hmin r hrmem))
        · exact h
        · exact absurd (hfirst k r h hr) (not_lt.mpr (hmin1 q hqmem))
      subst hjk
      rw [hq] at hr
      cases hr
      exact ⟨hc.trans hc1.symm, hn.trans hn1.symm⟩

/-- C19: `compute_corres` is idempotent.  On an object with the sizes that the
constructor gives, whatever its `corres`, `ps2_NN2img`, `ps1_img` and `error`,
`compute_corres` completes, and a second call right after it (with `transfo`,
`ps1` and `ps2` unchanged) completes and leaves the object as the first call
left it: `corres`, `ps2_NN2img`, `ps1_img` and `error` are those of the first
call, `error` being reset and not accumulated. -/
theorem compute_corres_idempotent {α : Type} [LinearOrderedField α] (env : Env α)
    (st : State α)
    (happ : (env.app st.transfo st.ps1).length = st.ps1.length)
    (hcl : st.corres.length = st.ps1.length)
    (hnl : st.ps2_NN2img.length = st.ps1.length) :
    ∃ s1, compute_corres env st = some s1 ∧ compute_corres env s1 = some s1 := by
  obtain ⟨s1, hs1, p1⟩ := compute_corres_spec env st happ hcl hnl
  have happ1 : (env.app s1.transfo s1.ps1).length = s1.ps1.length := by
    rw [p1.transfo_eq, p1.ps1_eq]; exact happ
  have hcl1 : s1.corres.length = s1.ps1.length := by
    rw [p1.corres_len, p1.ps1_eq]; exact hcl
  have hnl1 : s1.ps2_NN2img.length = s1.ps1.length := by
    rw [p1.nn_len, p1.ps1_eq]; exact hnl
  obtain ⟨s2, hs2, p2⟩ := compute_corres_spec env s1 happ1 hcl1 hnl1
  have himg : env.app s1.transfo s1.ps1 = env.app st.transfo st.ps1 := by
    rw [p1.transfo_eq, p1.ps1_eq]
  have hentry : ∀ i : Nat, s2.corres[i]? = s1.corres[i]? ∧
      s2.ps2_NN2img[i]? = s1.ps2_NN2img[i]? := by
    intro i
    by_cases hi : i < st.ps1.length
    · obtain ⟨p, hp⟩ : ∃ p, (env.app st.transfo st.ps1)[i]? = some p :=
        ⟨_, List.getElem?_eq_getElem (by rw [happ]; exact hi)⟩
      exact pointMatched_twice env st s1 s2 i p p1.ps2_eq (p1.point i p hp)
        (p2.point i p (by rw [himg]; exact hp))
    · have hi' : st.ps1.length ≤ i := not_lt.mp hi
      constructor
      · rw [List.getElem?_eq_none (by rw [p2.corres_len, p1.corres_len, hcl]; exact hi'),
          List.getElem?_eq_none (by rw [p1.corres_len, hcl]; exact hi')]
      · rw [List.getElem?_eq_none (by rw [p2.nn_len, p1.nn_len, hnl]; exact hi'),
          List.getElem?_eq_none (by rw [p1.nn_len, hnl]; exact hi')]
  have heq : s2 = s1 := by
    apply state_ext
    · exact p2.ps1_eq
    · exact p2.ps2_eq
    · rw [p2.img_eq, p1.img_eq, himg]
    · show (s2.ps2_NN2img : List (Point α)) = s1.ps2_NN2img
      exact List.ext_getElem? (fun (i : Nat) => (hentry i).2)
    · exact List.ext_getElem? (fun (i : Nat) => (hentry i).1)
    · exact p2.transfo_eq
    · rw [p2.error_eq, p1.error_eq, himg, p1.ps2_eq]
  refine ⟨s1, hs1, ?_⟩
  rw [hs2, heq]

/-- Witness of C19: `scrambledState`, whose `corres`, `ps2_NN2img`, `ps1_img`
and `error` are arbitrary values left by earlier calls. -/
theorem compute_corres_idempotent_witness :
    (exEnv.app scrambledState.transfo scrambledState.ps1).length =
      scrambledState.ps1.length ∧
    scrambledState.corres.length = scrambledState.ps1.length ∧
    scrambledState.ps2_NN2img.length = scrambledState.ps1.length ∧
    ∃ s1, compute_corres exEnv scrambledState = some s1 ∧
      compute_corres exEnv s1 = some s1 :=
  ⟨rfl, rfl, rfl, compute_corres_idempotent exEnv scrambledState rfl rfl rfl⟩

/-! ## Validity of the correspondence indices -/

/-- After the loop body of `perform`, `ps1_img` is what the last call of `cost`
wrote: the image of the source under the new transform with `t21` put back to
its value before the gradient step, not under the transform stored in
`transfo`. -/
theorem perform_iteration_image {α : Type} [LinearOrderedField α] (env : Env α)
    (st s1 : State α) (h : compute_corres env st = some s1) :
    ∃ s, perform_iteration env st = some s ∧
      s.transfo = (get_optimal_similarity env s1).1 ∧ s.ps1 = s1.ps1 ∧
      s.ps1_img =
        env.app (Similarity s.transfo.t11 s.transfo.t12 s.transfo.t13 s1.transfo.t21)
          s1.ps1 := by
  refine ⟨_, by unfold perform_iteration; rw [h]; rfl, rfl, ?_, ?_⟩
  · show (get_optimal_similarity_using_gd env s1).2.ps1 = s1.ps1
    rw [gd_is_one_step]
    rfl
  · show (get_optimal_similarity_using_gd env s1).2.ps1_img = _
    unfold get_optimal_similarity
    rw [gd_is_one_step]
    rfl

set_option maxHeartbeats 4000000 in
/-- The first iteration of `perform` on `imageStart`. -/
theorem image_first_iteration :
    perform_iteration exEnv (perform_init exEnv imageStart) = some imageAfterFirst := by
  norm_num [imageStart, imageAfterFirst, perform_iteration, perform_init,
    get_optimal_similarity, get_optimal_similarity_using_gd, gd_step, cost, Beaton_Tukey_rho,
    compute_corres, corres_point, corres_test, DBICP_new, exEnv, INF, BT_A, RHO_0, RHO_1,
    EPSILON_0, EPSILON_1, GD_NITER_MAX, List.range, List.range.loop, List.replicate]

set_option maxHeartbeats 4000000 in
/-- The correspondence search of the second iteration of `perform` on
`imageStart`. -/
theorem image_second_search : compute_corres exEnv imageAfterFirst = some imageSearched := by
  norm_num [imageAfterFirst, imageSearched, compute_corres, corres_point, corres_test,
    exEnv, INF, List.range, List.range.loop, abs_of_pos, abs_of_neg]

set_option maxHeartbeats 4000000 in
/-- The gradient descent of the second iteration of `perform` on `imageStart`:
`t11` stays `0`, `ps1_img` is left as the image under the transform of the
first iteration, and `t21` decreases. -/
theorem image_second_descent :
    (get_optimal_similarity exEnv imageSearched).1.t11 = 0 ∧
    (get_optimal_similarity exEnv imageSearched).2.ps1_img = imageSearched.ps1_img ∧
    (get_optimal_similarity exEnv imageSearched).1.t21 < imageSearched.transfo.t21 := by
  norm_num [imageSearched, get_optimal_similarity, get_optimal_similarity_using_gd, gd_step,
    cost, Beaton_Tukey_rho, exEnv, BT_A, RHO_0, RHO_1, EPSILON_0, EPSILON_1, GD_NITER_MAX,
    List.range, List.range.loop, abs_of_pos, abs_of_neg]

/-- C11 (evaluation at the failing input): `perform` on
`DBICP([(0,0), (10,0)], [(-2,0), (12,0)])` returns with `ps1_img` equal to the
image of the source under the transform of the first iteration (`t21` about
`-0.01`), while the final `transfo` has a smaller `t21`: `ps1_img` is not the
image of `ps1` under the final `transfo`. -/
theorem perform_image_not_final_transform :
    ∃ s, perform exEnv imageStart = some s ∧
      s.ps1_img =
        [⟨0, -1874999999999025000000000133 / 187500000000000000000000000000⟩,
         ⟨10, -1874999999999025000000000133 / 187500000000000000000000000000⟩] ∧
      exEnv.app s.transfo s.ps1 = [⟨0, s.transfo.t21⟩, ⟨10, s.transfo.t21⟩] ∧
      s.transfo.t21 < -1874999999999025000000000133 / 187500000000000000000000000000 ∧
      s.ps1_img ≠ exEnv.app s.transfo s.ps1 := by
  obtain ⟨h11, himg, hlt⟩ := image_second_descent
  have hperf : perform exEnv imageStart =
      some { (get_optimal_similarity exEnv imageSearched).2 with
             transfo := (get_optimal_similarity exEnv imageSearched).1 } := by
    rw [perform_two_iterations, image_first_iteration, Option.some_bind]
    unfold perform_iteration
    rw [image_second_search]
    rfl
  have happ : exEnv.app (get_optimal_similarity exEnv imageSearched).1
      (get_optimal_similarity exEnv imageSearched).2.ps1 =
      [⟨0, (get_optimal_similarity exEnv imageSearched).1.t21⟩,
       ⟨10, (get_optimal_similarity exEnv imageSearched).1.t21⟩] := by
    have hps1 : (get_optimal_similarity exEnv imageSearched).2.ps1 = [⟨0, 0⟩, ⟨10, 0⟩] := by
      show (get_optimal_similarity_using_gd exEnv imageSearched).2.ps1 = _
      rw [gd_is_one_step]
      rfl
    rw [hps1]
    generalize (get_optimal_similarity exEnv imageSearched).1 = T at h11 ⊢
    simp only [exEnv, List.map_cons, List.map_nil, h11, add_zero, zero_add]
  refine ⟨_, hperf, himg, happ, hlt, ?_⟩
  show (get_optimal_similarity exEnv imageSearched).2.ps1_img ≠
    exEnv.app (get_optimal_similarity exEnv imageSearched).1
      (get_optimal_similarity exEnv imageSearched).2.ps1
  rw [himg, happ]
  intro heq
  have h0 : (-1874999999999025000000000133 / 187500000000000000000000000000 : ℚ) =
      (get_optimal_similarity exEnv imageSearched).1.t21 := by
    have := congrArg (fun l => (l.map Point.y).head?) heq
    simpa [imageSearched] using this
  rw [← h0] at hlt
  exact absurd hlt (lt_irrefl _)

/-! ## The states of `perform` are reachable -/

/-- The gradient descent only calls `cost`: its final state is reachable. -/
theorem reachable_gd {α : Type} [LinearOrderedField α] (env : Env α)
    (ps1 ps2 : PointSet α) (s : State α) (hr : Reachable env ps1 ps2 s) :
    Reachable env ps1 ps2 (get_optimal_similarity_using_gd env s).2 := by
  rw [gd_is_one_step]
  unfold gd_step
  exact Reachable.evaluate _ _ (Reachable.evaluate _ _ (Reachable.evaluate _ _
    (Reachable.evaluate _ _ (Reachable.evaluate _ _ (Reachable.evaluate _ _
    (Reachable.evaluate _ _ (Reachable.evaluate _ _ hr)))))))

/-- The state after the initialisation of `perform` is reachable. -/
theorem reachable_perform_init {α : Type} [LinearOrderedField α] (env : Env α)
    (ps1 ps2 : PointSet α) (s : State α) (hr : Reachable env ps1 ps2 s) :
    Reachable env ps1 ps2 (perform_init env s) :=
  Reachable.assign _ (perform_init env s).transfo
    (Reachable.evaluate s (perform_init env s).transfo hr)

/-- The state after a loop body of `perform` that completes is reachable. -/
theorem reachable_perform_iteration {α : Type} [LinearOrderedField α] (env : Env α)
    (ps1 ps2 : PointSet α) (s s' : State α) (hr : Reachable env ps1 ps2 s)
    (h : perform_iteration env s = some s') : Reachable env ps1 ps2 s' := by
  unfold perform_iteration at h
  cases hc : compute_corres env s with
  | none => rw [hc] at h; cases h
  | some s1 =>
    rw [hc, Option.map_some'] at h
    cases h
    exact Reachable.assign _ _ (reachable_gd env ps1 ps2 s1 (Reachable.search s s1 hr hc))

/-- The state that `perform` returns is reachable, so that the index invariant
holds when `perform` returns. -/
theorem reachable_perform {α : Type} [LinearOrderedField α] (env : Env α)
    (ps1 ps2 : PointSet α) (s s' : State α) (hr : Reachable env ps1 ps2 s)
    (h : perform env s = some s') : Reachable env ps1 ps2 s' := by
  rw [perform_two_iterations] at h
  cases h1 : perform_iteration env (perform_init env s) with
  | none => rw [h1] at h; cases h
  | some s1 =>
    rw [h1, Option.some_bind] at h
    exact reachable_perform_iteration env ps1 ps2 s1 s'
      (reachable_perform_iteration env ps1 ps2 _ s1
        (reachable_perform_init env ps1 ps2 s hr) h1) h

end DBICP
